import Mathlib

/-!
# Storage gateway: request pipeline, bucket and object handlers

A shallow embedding of `common.go`, `router.go`, `handlers.go` and the route
table of `main.go`.

Conventions of the embedding:

* a Go `string` / `[]byte` is a Lean `String`, inspected through its list of
  characters (all the string operations of the source act on ASCII delimiters);
* `http.ResponseWriter` is a record of the header map, the committed status
  line and the chunks written to the body; writes to it do not fail; the body
  the client receives is `sentBody`, empty on a `HEAD` request;
* the GridFS blob store (package `mgo`) is an external collaborator: it is a
  state machine `GridFS σ` over an arbitrary state `σ`, and every call made to
  it is appended to a call log carried in the request state;
* a Go panic is the `Exit.panicked` result of a handler.
-/

namespace StorageGateway

/-! ## Go values -/

/-- Go `error` values. `io.EOF` and `mgo.ErrNotFound` are sentinels compared by
identity in the source; every other error is carried by its message. -/
inductive GoError where
  | eof
  | errNotFound
  | other (msg : String)
  deriving DecidableEq, Repr

/-- The `Error()` method of an error value. -/
def GoError.Error : GoError → String
  | .eof => "EOF"
  | .errNotFound => "not found"
  | .other msg => msg

/-- Values of `interface{}` stored in a metadata map. -/
inductive Value where
  | str (s : String)
  | int (n : Int)
  | bool (b : Bool)
  | null
  deriving DecidableEq, Repr

/-- A Go `map[string]interface{}` as an association list; the nil map and the
empty map are both `[]`. -/
abbrev GoMap := List (String × Value)

/-- Map read `m[k]` with the comma-ok result. -/
def GoMap.get (m : GoMap) (k : String) : Option Value :=
  match m with
  | [] => none
  | (k1, v) :: rest => if k1 = k then some v else GoMap.get rest k

/-- The builtin `delete(m, k)`. -/
def GoMap.delete (m : GoMap) (k : String) : GoMap :=
  match m with
  | [] => []
  | (k1, v) :: rest => if k1 = k then GoMap.delete rest k else (k1, v) :: GoMap.delete rest k

/-- Map write `m[k] = v`. -/
def GoMap.set (m : GoMap) (k : String) (v : Value) : GoMap :=
  GoMap.delete m k ++ [(k, v)]

/-- JSON documents produced by `encoding/json`. -/
inductive Json where
  | null
  | bool (b : Bool)
  | num (n : Int)
  | str (s : String)
  | arr (items : List Json)
  | obj (fields : List (String × Json))
  deriving Repr

/-- JSON encoding of an `interface{}` value. -/
def Value.toJson : Value → Json
  | .str s => .str s
  | .int n => .num n
  | .bool b => .bool b
  | .null => .null

/-- JSON encoding of a `map[string]interface{}`. -/
def GoMap.toJson (m : GoMap) : Json :=
  .obj (m.map (fun kv => (kv.1, kv.2.toJson)))

/-! ## Strings -/

/-- The function `strings.HasPrefix`. -/
def stringsHasPrefix (s pre : String) : Bool :=
  pre.data.isPrefixOf s.data

/-- Position of the first occurrence of `c` in `cs`, or `-1`. -/
def indexRuneAux (c : Char) : List Char → Int
  | [] => -1
  | x :: rest =>
    if x = c then 0
    else
      let i := indexRuneAux c rest
      if i = -1 then -1 else i + 1

/-- The function `strings.IndexRune`. -/
def stringsIndexRune (s : String) (c : Char) : Int :=
  indexRuneAux c s.data

/-- The slice expression `s[0:i]`. -/
def sliceTo (s : String) (i : Int) : String :=
  String.mk (s.data.take i.toNat)

/-! ## HTTP requests and responses -/

/-- The type `http.Header`: canonical header name to list of values. -/
abbrev HttpHeader := List (String × List String)

/-- Method `Header.Get`: the first value of the key, or the empty string. -/
def HttpHeader.Get (h : HttpHeader) (key : String) : String :=
  match h with
  | [] => ""
  | (k, vs) :: rest => if k = key then vs.headD "" else HttpHeader.Get rest key

/-- Method `Header.Set`: replaces the values of the key by the single value. -/
def HttpHeader.Set (h : HttpHeader) (key value : String) : HttpHeader :=
  (key, [value]) :: h.filter (fun kv => kv.1 ≠ key)

/-- One part of a multipart body as the handler observes it: the names of its
`Content-Disposition`, the bytes its reader yields, and how reading ends
(`none`: end of part; `some e`: the read fails with `e`). -/
structure Part where
  formName : String
  fileName : String
  data : String
  readErr : Option GoError
  deriving DecidableEq, Repr

/-- A `multipart.Reader`: `NextPart` yields the parts in order and then fails
with `final`, which is `io.EOF` on a clean end of the stream. -/
structure MultipartStream where
  parts : List Part
  final : GoError
  deriving DecidableEq, Repr

/-- The fields of `http.Request` used by the program; `multipartReader` is the
result of `r.MultipartReader()`. -/
structure Request where
  Method : String
  URL : String
  Header : HttpHeader
  multipartReader : Except GoError MultipartStream

/-- The type `httprouter.Params`. -/
abbrev Params := List (String × String)

/-- Method `Params.ByName`: value of the first parameter with that key, or the
empty string. -/
def Params.ByName (ps : Params) (name : String) : String :=
  match ps with
  | [] => ""
  | (k, v) :: rest => if k = name then v else Params.ByName rest name

/-- Something written to the response body. -/
inductive Chunk where
  | json (v : Json)
  | text (s : String)
  deriving Repr

/-- State of an `http.ResponseWriter`. `status` is `none` until the status line
is committed by `WriteHeader` or by the first `Write`; `body` holds what the
handler has written, in order. What the server sends of it depends on the
request method, see `sentBody`. -/
structure ResponseWriter where
  header : HttpHeader
  status : Option Nat
  body : List Chunk

/-- A response writer as the server hands it to a handler. -/
def ResponseWriter.fresh : ResponseWriter :=
  { header := [], status := none, body := [] }

/-- Method `WriteHeader`: commits the status line; a later call is superfluous
and leaves the committed status in place. -/
def ResponseWriter.WriteHeader (w : ResponseWriter) (code : Nat) : ResponseWriter :=
  match w.status with
  | some _ => w
  | none => { w with status := some code }

/-- Method `Write`: commits status 200 when none is committed yet, then appends
to the body. -/
def ResponseWriter.Write (w : ResponseWriter) (c : Chunk) : ResponseWriter :=
  let w1 := w.WriteHeader 200
  { w1 with body := w1.body ++ [c] }

/-- Assignment `w.Header().Set(key, value)`. -/
def ResponseWriter.setHeader (w : ResponseWriter) (key value : String) : ResponseWriter :=
  { w with header := w.header.Set key value }

/-- The function `http.Error`. -/
def httpError (w : ResponseWriter) (error : String) (code : Nat) : ResponseWriter :=
  let w1 := w.setHeader "Content-Type" "text/plain; charset=utf-8"
  let w2 := w1.setHeader "X-Content-Type-Options" "nosniff"
  let w3 := w2.WriteHeader code
  w3.Write (.text (error ++ "\n"))

/-- The function `http.StatusText` on the codes the program uses. -/
def httpStatusText (code : Nat) : String :=
  if code = 500 then "Internal Server Error" else ""

def StatusCreated : Nat := 201
def StatusFound : Nat := 302
def StatusBadRequest : Nat := 400
def StatusNotFound : Nat := 404
def StatusUnsupportedMediaType : Nat := 415
def StatusInternalServerError : Nat := 500
def StatusNotImplemented : Nat := 501

/-! ## Object identifiers (package `bson`) -/

/-- The type `bson.ObjectId`: the raw bytes of the identifier. -/
structure ObjectId where
  bytes : List Nat
  deriving DecidableEq, Repr

/-- Value of one hexadecimal digit. -/
def hexVal (c : Char) : Option Nat :=
  if 48 ≤ c.toNat ∧ c.toNat ≤ 57 then some (c.toNat - 48)
  else if 97 ≤ c.toNat ∧ c.toNat ≤ 102 then some (c.toNat - 87)
  else if 65 ≤ c.toNat ∧ c.toNat ≤ 70 then some (c.toNat - 55)
  else none

/-- The function `hex.DecodeString` on a list of characters. -/
def hexDecode : List Char → Option (List Nat)
  | [] => some []
  | [_] => none
  | a :: b :: rest =>
    match hexVal a, hexVal b, hexDecode rest with
    | some x, some y, some r => some ((16 * x + y) :: r)
    | _, _, _ => none

/-- The function `bson.IsObjectIdHex`: 24 characters that decode as
hexadecimal. -/
def IsObjectIdHex (s : String) : Bool :=
  if s.data.length ≠ 24 then false else (hexDecode s.data).isSome

/-- The function `bson.ObjectIdHex`, called by the source only after
`IsObjectIdHex` has held. -/
def ObjectIdHex (s : String) : ObjectId :=
  { bytes := (hexDecode s.data).getD [] }

/-- One lower-case hexadecimal digit. -/
def hexDigit (n : Nat) : Char :=
  if n < 10 then Char.ofNat (48 + n) else Char.ofNat (87 + n)

/-- Method `ObjectId.Hex`, which is also the JSON form of an identifier. -/
def ObjectId.Hex (id : ObjectId) : String :=
  String.mk (id.bytes.flatMap (fun b => [hexDigit (b / 16), hexDigit (b % 16)]))

/-! ## Data model (`handlers.go`, `common.go`) -/

/-- The struct `ObjectMeta`. -/
structure ObjectMeta where
  ID : ObjectId
  Filename : String
  ContentType : String
  Size : Int
  ChunkSize : Int
  CheckSum : String
  CreatedOn : String
  Metadata : GoMap
  deriving DecidableEq, Repr

/-- The zero value of `ObjectMeta`. -/
def ObjectMeta.zero : ObjectMeta :=
  { ID := { bytes := [] }, Filename := "", ContentType := "", Size := 0, ChunkSize := 0,
    CheckSum := "", CreatedOn := "", Metadata := [] }

/-- The struct `BucketMeta`. `Objects` is a Go slice: `none` is the nil slice,
which JSON renders as `null`; `some []` is an empty non-nil slice. -/
structure BucketMeta where
  Name : String
  Objects : Option (List ObjectMeta)
  deriving DecidableEq, Repr

/-- The builtin `append(s, x)` on a slice. -/
def sliceAppend {α : Type} (s : Option (List α)) (x : α) : Option (List α) :=
  some (s.getD [] ++ [x])

/-- The struct `Error` of `common.go`. -/
structure Error where
  Title : String
  Message : String
  Details : GoMap
  deriving DecidableEq, Repr

/-- JSON encoding of `ObjectMeta` following its `json` tags; `extra` is
`omitempty`. -/
def ObjectMeta.toJson (m : ObjectMeta) : Json :=
  .obj ([("id", .str m.ID.Hex), ("filename", .str m.Filename),
         ("content_type", .str m.ContentType), ("size", .num m.Size),
         ("chunk_size", .num m.ChunkSize), ("md5", .str m.CheckSum),
         ("created_on", .str m.CreatedOn)]
        ++ (if m.Metadata.isEmpty then [] else [("extra", m.Metadata.toJson)]))

/-- JSON encoding of `BucketMeta` following its `json` tags. -/
def BucketMeta.toJson (b : BucketMeta) : Json :=
  .obj [("name", .str b.Name),
        ("objects", match b.Objects with
                    | none => .null
                    | some os => .arr (os.map ObjectMeta.toJson))]

/-- JSON encoding of `Error` following its `json` tags; `details` is
`omitempty`. -/
def Error.toJson (e : Error) : Json :=
  .obj ([("title", .str e.Title), ("message", .str e.Message)]
        ++ (if e.Details.isEmpty then [] else [("details", e.Details.toJson)]))

/-- The Error Envelope: JSON encoding of `map[string]*Error` with the single
key `error`. -/
def errorEnvelope (e : Error) : Json :=
  .obj [("error", e.toJson)]

/-! ## The blob store (package `mgo`, GridFS) -/

/-- A `*mgo.GridFile` opened for writing: the identifier assigned by the store
and the fields of its file document, which `SetName`, `SetContentType` and
`SetMeta` change on the handle and `Close` persists. -/
structure GridFile where
  id : ObjectId
  name : String
  contentType : String
  meta : GoMap
  deriving DecidableEq, Repr

/-- The handle `fs.Create(name)` returns for a new entry with identifier `id`:
only the file name is set. -/
def GridFile.new (id : ObjectId) (name : String) : GridFile :=
  { id := id, name := name, contentType := "", meta := [] }

def GridFile.SetName (f : GridFile) (name : String) : GridFile := { f with name := name }

def GridFile.SetContentType (f : GridFile) (ctype : String) : GridFile :=
  { f with contentType := ctype }

def GridFile.SetMeta (f : GridFile) (m : GoMap) : GridFile := { f with meta := m }

/-- A `*mgo.GridFile` opened for reading: its document fields, the bytes its
reader yields and how reading ends. -/
structure ReadFile where
  id : ObjectId
  name : String
  contentType : String
  data : String
  readErr : Option GoError
  deriving DecidableEq, Repr

/-- The operations of the store the handlers call, as a state machine over an
arbitrary store state `σ`. Each operation returns its Go result and the next
state. `iterAll` is `Find(metadata.bucket = name).Iter()` run to exhaustion:
the records `Next` delivers and the result of `Close`. -/
structure GridFS (σ : Type) where
  ensureIndexKey : String → σ → Option GoError × σ
  count : String → σ → Except GoError Nat × σ
  iterAll : String → σ → (List ObjectMeta × Option GoError) × σ
  findId : ObjectId → σ → Except GoError ObjectMeta × σ
  create : String → σ → Except GoError ObjectId × σ
  write : ObjectId → String → σ → Option GoError × σ
  close : GridFile → σ → Option GoError × σ
  openId : ObjectId → σ → Except GoError ReadFile × σ
  closeRead : ObjectId → σ → Option GoError × σ

/-- A call made to the store, as recorded in the call log, with the error it
returned (`none`: success). A successful `create` records the identifier of the
new entry instead. -/
inductive StoreCall where
  | ensureIndexKey (key : String) (err : Option GoError)
  | count (bucket : String) (err : Option GoError)
  | iterAll (bucket : String) (err : Option GoError)
  | findId (id : ObjectId) (err : Option GoError)
  | create (name : String) (id : Option ObjectId)
  | write (id : ObjectId) (data : String) (err : Option GoError)
  | close (f : GridFile) (err : Option GoError)
  | openId (id : ObjectId) (err : Option GoError)
  | closeRead (id : ObjectId) (err : Option GoError)
  deriving DecidableEq, Repr

/-- Whether a logged call returned an error. -/
def StoreCall.failed : StoreCall → Bool
  | .ensureIndexKey _ err => err.isSome
  | .count _ err => err.isSome
  | .iterAll _ err => err.isSome
  | .findId _ err => err.isSome
  | .create _ id => id.isNone
  | .write _ _ err => err.isSome
  | .close _ err => err.isSome
  | .openId _ err => err.isSome
  | .closeRead _ err => err.isSome

/-- The error of a Go result pair `(value, err)`. -/
def errOf {α : Type} (r : Except GoError α) : Option GoError :=
  match r with
  | .ok _ => none
  | .error e => some e

/-! ## Request state and handlers -/

/-- Everything a handler can change while serving one request: the response
writer, the `gorilla/context` entry `CtxParamsKey` of the request, the state of
the store and the log of calls made to the store. -/
structure St (σ : Type) where
  w : ResponseWriter
  ctx : Option Params
  store : σ
  calls : List StoreCall

/-- How a call of `ServeHTTP` ends: it returns, or it panics with a non-nil
value. -/
inductive Exit where
  | returned
  | panicked (v : String)
  deriving DecidableEq, Repr

/-- An `http.Handler`. -/
abbrev Handler (σ : Type) := Request → St σ → St σ × Exit

/-- A middleware constructor in the sense of `alice.Constructor`. -/
abbrev Middleware (σ : Type) := Handler σ → Handler σ

/-- Runs one store operation: advances the store and logs the call. -/
def callStore {σ α : Type} (st : St σ) (op : σ → α × σ) (c : α → StoreCall) : α × St σ :=
  let r := op st.store
  (r.1, { st with store := r.2, calls := st.calls ++ [c r.1] })

/-- The identifier carried by a successful result. -/
def okId (r : Except GoError ObjectId) : Option ObjectId :=
  match r with
  | .ok id => some id
  | .error _ => none

/-! ## `common.go` -/

/-- Function `respondWithError` on the response writer. -/
def respondWithErrorW (w : ResponseWriter) (statusCode : Nat) (title : String)
    (err : Option GoError) : ResponseWriter :=
  let d : Error := { Title := title, Message := "", Details := [] }
  let d := match err with
    | some e => { d with Message := e.Error }
    | none => d
  let w := w.WriteHeader statusCode
  w.Write (.json (errorEnvelope d))

/-- Function `respondWithError`. -/
def respondWithError {σ : Type} (st : St σ) (statusCode : Nat) (title : String)
    (err : Option GoError) : St σ :=
  { st with w := respondWithErrorW st.w statusCode title err }

/-- Middleware `InfoHeadersHandler`: it calls the next handler and sets no
header. -/
def InfoHeadersHandler {σ : Type} (next : Handler σ) : Handler σ :=
  fun r st => next r st

/-- Function `isContentType`. -/
def isContentType (h : HttpHeader) (contentType : String) : Bool :=
  let ct := h.Get "Content-Type"
  let i := stringsIndexRune ct ';'
  let ct := if i ≠ -1 then sliceTo ct i else ct
  ct = contentType

/-- The `for _, ct := range contentTypes` loop of `NewContentTypeHandler`:
`true` when some entry makes `isContentType` hold (the loop then calls `next`
and returns). -/
def anyContentType (h : HttpHeader) : List String → Bool
  | [] => false
  | ct :: rest => if isContentType h ct then true else anyContentType h rest

/-- The verb `%q` of `fmt` on a string without characters to escape. -/
def goQuote (s : String) : String :=
  "\"" ++ s ++ "\""

/-- Middleware `NewContentTypeHandler`. -/
def NewContentTypeHandler {σ : Type} (contentTypes : List String) (next : Handler σ) :
    Handler σ :=
  fun r st =>
    if ¬ (r.Method = "PUT" ∨ r.Method = "POST" ∨ r.Method = "PATCH") then
      next r st
    else if anyContentType r.Header contentTypes then
      next r st
    else
      let msg := "Unsupported content type " ++ goQuote (r.Header.Get "Content-Type")
        ++ "; expected one of [" ++ String.intercalate " " (contentTypes.map goQuote) ++ "]"
      ({ st with w := httpError st.w msg StatusUnsupportedMediaType }, .returned)

/-- Middleware `JSONRenderingHandler`. -/
def JSONRenderingHandler {σ : Type} (next : Handler σ) : Handler σ :=
  fun r st =>
    next r { st with w := st.w.setHeader "Content-Type" "application/json; charset=utf-8" }

/-- Middleware `LoggingHandler`; the log line is not part of the state. -/
def LoggingHandler {σ : Type} (next : Handler σ) : Handler σ :=
  fun r st => next r st

/-- Middleware `RecoverHandler`: the deferred function runs when `next` ends;
when `recover()` yields a value it answers with `http.Error(w, ..., 500)` and
the wrapped handler returns normally. -/
def RecoverHandler {σ : Type} (next : Handler σ) : Handler σ :=
  fun r st =>
    match next r st with
    | (st1, .returned) => (st1, .returned)
    | (st1, .panicked _) =>
      ({ st1 with w := httpError st1.w (httpStatusText 500) 500 }, .returned)

/-- Middleware `context.ClearHandler` of `gorilla/context`: `defer Clear(r)`
around the inner handler. -/
def ClearHandler {σ : Type} (next : Handler σ) : Handler σ :=
  fun r st =>
    let out := next r st
    ({ out.1 with ctx := none }, out.2)

/-- Methods `alice.New(cs...).Then(h)`: `cs[0](cs[1](... (h)))`. -/
def chainThen {σ : Type} (cs : List (Middleware σ)) (h : Handler σ) : Handler σ :=
  cs.foldr (fun c acc => c acc) h

/-- Function `wrapHandler` of `router.go`. -/
def wrapHandler {σ : Type} (h : Handler σ) (ps : Params) : Handler σ :=
  fun r st => h r { st with ctx := some ps }

/-- The expression `context.Get(r, CtxParamsKey).(httprouter.Params)`: the type
assertion panics when the context holds no parameters. -/
def getParams {σ : Type} (st : St σ) : Except String Params :=
  match st.ctx with
  | some ps => .ok ps
  | none => .error "interface conversion: interface is nil, not httprouter.Params"

/-- Error result of `ioutil.ReadAll` and `io.Copy` for a reader that ends with
`e`: reaching `io.EOF` is success. -/
def readResult (e : Option GoError) : Option GoError :=
  match e with
  | some .eof => none
  | other => other

/-! ## `handlers.go`: bucket API -/

namespace BucketWebHandler

/-- Method `BucketWebHandler.CheckExists`. -/
def CheckExists {σ : Type} (fs : GridFS σ) : Handler σ :=
  fun _ st =>
    match getParams st with
    | .error v => (st, .panicked v)
    | .ok params =>
      if params.ByName "name" = "" then
        (respondWithError st StatusBadRequest "Invalid bucket name" none, .returned)
      else
        let r1 := callStore st (fs.ensureIndexKey "metadata.bucket")
          (fun e => .ensureIndexKey "metadata.bucket" e)
        let r2 := callStore r1.2 (fs.count (params.ByName "name"))
          (fun res => .count (params.ByName "name") (errOf res))
        match r2.1 with
        | .error e =>
          (respondWithError r2.2 StatusInternalServerError "Operational error" (some e),
            .returned)
        | .ok n =>
          if n = 0 then ({ r2.2 with w := r2.2.w.WriteHeader StatusNotFound }, .returned)
          else ({ r2.2 with w := r2.2.w.WriteHeader StatusFound }, .returned)

/-- Body of the `for iter.Next(&meta)` loop of `Retreive` for one record. -/
def retreiveStep (bucket : BucketMeta) (meta : ObjectMeta) : BucketMeta :=
  let meta :=
    match meta.Metadata.get "bucket" with
    | some _ => { meta with Metadata := meta.Metadata.delete "bucket" }
    | none => meta
  { bucket with Objects := sliceAppend bucket.Objects meta }

/-- The `for iter.Next(&meta)` loop of `Retreive` over the records delivered;
each `Next` resets `meta` and decodes the next record into it. -/
def retreiveLoop (bucket : BucketMeta) : List ObjectMeta → BucketMeta
  | [] => bucket
  | meta :: rest => retreiveLoop (retreiveStep bucket meta) rest

/-- Method `BucketWebHandler.Retreive`. -/
def Retreive {σ : Type} (fs : GridFS σ) : Handler σ :=
  fun _ st =>
    match getParams st with
    | .error v => (st, .panicked v)
    | .ok params =>
      if params.ByName "name" = "" then
        (respondWithError st StatusBadRequest "Invalid bucket name" none, .returned)
      else
        let bucket : BucketMeta := { Name := params.ByName "name", Objects := some [] }
        let r := callStore st (fs.iterAll (params.ByName "name"))
          (fun res => .iterAll (params.ByName "name") res.2)
        let bucket := retreiveLoop bucket r.1.1
        match r.1.2 with
        | some e =>
          (respondWithError r.2 StatusInternalServerError "Operational error" (some e),
            .returned)
        | none => ({ r.2 with w := r.2.w.Write (.json bucket.toJson) }, .returned)

/-- Method `BucketWebHandler.Delete`. -/
def Delete {σ : Type} (_fs : GridFS σ) : Handler σ :=
  fun _ st => (respondWithError st StatusNotImplemented "Not implemented" none, .returned)

end BucketWebHandler

/-! ## `handlers.go`: object API -/

namespace ObjectWebHandler

/-- How one pass through the body of the `for part, err = body.NextPart()` loop
of `Create` ends: the loop goes on (`next`), the loop is left by `break` with
`err` set (`brk`), or the handler has responded and returned (`ret`). The
local variables `obj` and `file` travel with the state. -/
inductive LoopExit (σ : Type) where
  | next (obj : ObjectMeta) (file : Option GridFile) (st : St σ)
  | brk (err : GoError) (obj : ObjectMeta) (file : Option GridFile) (st : St σ)
  | ret (st : St σ)

/-- A part carrying the plain field `name`: that form name and no file name. -/
def isField (name : String) (part : Part) : Bool :=
  part.formName = name && part.fileName = ""

/-- A content-bearing part: form name `object` and a file name. -/
def isObjectPart (part : Part) : Bool :=
  part.formName = "object" && part.fileName ≠ ""

/-- The call `io.Copy(file, part)`: the bytes of the part are written to the
store entry; the copy fails with the write error of the store, else with the
read error of the part. -/
def copyToFile {σ : Type} (fs : GridFS σ) (file : GridFile) (part : Part) (st : St σ) :
    Option GoError × St σ :=
  if part.data = "" then (readResult part.readErr, st)
  else
    let r := callStore st (fs.write file.id part.data) (fun e => .write file.id part.data e)
    match r.1 with
    | some e => (some e, r.2)
    | none => (readResult part.readErr, r.2)

/-- Body of the loop of `Create` for one part. -/
def createStep {σ : Type} (fs : GridFS σ) (part : Part) (obj : ObjectMeta)
    (file : Option GridFile) (st : St σ) : LoopExit σ :=
  if isField "filename" part then
    match readResult part.readErr with
    | some e => .brk e obj file st
    | none => .next { obj with Filename := part.data } file st
  else if isField "content_type" part then
    match readResult part.readErr with
    | some e => .brk e obj file st
    | none => .next { obj with ContentType := part.data } file st
  else if isField "extra.bucket" part then
    match readResult part.readErr with
    | some e => .brk e obj file st
    | none => .next { obj with Metadata := obj.Metadata.set "bucket" (.str part.data) } file st
  else if isObjectPart part then
    let r := callStore st (fs.create part.fileName) (fun res => .create part.fileName (okId res))
    match r.1 with
    | .error e =>
      .ret (respondWithError r.2 StatusInternalServerError "Failed to create GridFS file"
        (some e))
    | .ok id =>
      let f : GridFile := GridFile.new id part.fileName
      let c := copyToFile fs f part r.2
      match c.1 with
      | some e =>
        let cl := callStore c.2 (fs.close f) (fun e => .close f e)
        .ret (respondWithError cl.2 StatusInternalServerError "Failed to save GridFS file"
          (some e))
      | none => .next obj (some f) c.2
  else .next obj file st

/-- The loop of `Create` over the parts `NextPart` delivers. -/
def createLoop {σ : Type} (fs : GridFS σ) :
    List Part → ObjectMeta → Option GridFile → St σ → LoopExit σ
  | [], obj, file, st => .next obj file st
  | part :: rest, obj, file, st =>
    match createStep fs part obj file st with
    | .next obj1 file1 st1 => createLoop fs rest obj1 file1 st1
    | .brk e obj1 file1 st1 => .brk e obj1 file1 st1
    | .ret st1 => .ret st1

/-- The statements of `Create` after the loop, entered with the non-nil `err`
that ended it. -/
def createFinish {σ : Type} (fs : GridFS σ) (err : GoError) (obj : ObjectMeta)
    (file : Option GridFile) (st : St σ) : St σ :=
  if err ≠ .eof then
    let st1 :=
      match file with
      | some f => (callStore st (fs.close f) (fun e => .close f e)).2
      | none => st
    respondWithError st1 StatusBadRequest "Failed to process multipart form" (some err)
  else
    match file with
    | none =>
      respondWithError st StatusBadRequest "Bad request"
        (some (.other "No object has been uploaded"))
    | some f =>
      let f := (f.SetName obj.Filename).SetMeta obj.Metadata
      let f := if obj.ContentType ≠ "" then f.SetContentType obj.ContentType else f
      let cl := callStore st (fs.close f) (fun e => .close f e)
      match cl.1 with
      | some e =>
        respondWithError cl.2 StatusInternalServerError "Failed to close GridFS file" (some e)
      | none =>
        let fd := callStore cl.2 (fs.findId f.id) (fun res => .findId f.id (errOf res))
        match fd.1 with
        | .error .errNotFound =>
          respondWithError fd.2 StatusInternalServerError "Newly created could not be found"
            (some .errNotFound)
        | .error e =>
          respondWithError fd.2 StatusInternalServerError "Operational error" (some e)
        | .ok found =>
          { fd.2 with w := (fd.2.w.WriteHeader StatusCreated).Write (.json found.toJson) }

/-- The value of `obj` when the loop of `Create` is entered. -/
def createInit (r : Request) : ObjectMeta :=
  { ObjectMeta.zero with
    Metadata := GoMap.set [] "cid" (.str (r.Header.Get "X-Correlation-Id")) }

/-- The statements of `Create` that follow the loop, by the way the loop was
left; `final` is the error of the last `NextPart`. -/
def createTail {σ : Type} (fs : GridFS σ) (final : GoError) : LoopExit σ → St σ
  | .next obj file st => createFinish fs final obj file st
  | .brk e obj file st => createFinish fs e obj file st
  | .ret st => st

/-- The statement `w.Header().Set("Content-Type", ...)` that opens `Create`. -/
def createEntry {σ : Type} (st : St σ) : St σ :=
  { st with w := st.w.setHeader "Content-Type" "application/json; charset=utf-8" }

/-- Method `ObjectWebHandler.Create`. -/
def Create {σ : Type} (fs : GridFS σ) : Handler σ :=
  fun r st =>
    let st := createEntry st
    let ctype := r.Header.Get "Content-Type"
    if ¬ stringsHasPrefix ctype "multipart/form-data" then
      (respondWithError st StatusUnsupportedMediaType "Unsupported media type"
        (some (.other ("Expecting multipart/form-data content type but received: " ++ ctype))),
        .returned)
    else
      match r.multipartReader with
      | .error e =>
        (respondWithError st StatusBadRequest "Failed to parse data" (some e), .returned)
      | .ok body =>
        (createTail fs body.final (createLoop fs body.parts (createInit r) none st), .returned)

/-- Method `ObjectWebHandler.Update`. -/
def Update {σ : Type} (_fs : GridFS σ) : Handler σ :=
  fun _ st => (respondWithError st StatusNotImplemented "Not implemented" none, .returned)

/-- Method `ObjectWebHandler.CheckExists`. -/
def CheckExists {σ : Type} (fs : GridFS σ) : Handler σ :=
  fun _ st =>
    match getParams st with
    | .error v => (st, .panicked v)
    | .ok params =>
      if ¬ IsObjectIdHex (params.ByName "id") then
        (respondWithError st StatusBadRequest "Invalid object ID" none, .returned)
      else
        let objID := ObjectIdHex (params.ByName "id")
        let fd := callStore st (fs.findId objID) (fun res => .findId objID (errOf res))
        match fd.1 with
        | .error .errNotFound => ({ fd.2 with w := fd.2.w.WriteHeader StatusNotFound }, .returned)
        | .error e =>
          (respondWithError fd.2 StatusInternalServerError "Operational error" (some e),
            .returned)
        | .ok _ => ({ fd.2 with w := fd.2.w.WriteHeader StatusFound }, .returned)

/-- The call `io.Copy(w, file)` of `Download`. -/
def copyToResponse (w : ResponseWriter) (file : ReadFile) : Option GoError × ResponseWriter :=
  if file.data = "" then (readResult file.readErr, w)
  else (readResult file.readErr, w.Write (.text file.data))

/-- Method `ObjectWebHandler.Download`. -/
def Download {σ : Type} (fs : GridFS σ) : Handler σ :=
  fun _ st =>
    match getParams st with
    | .error v => (st, .panicked v)
    | .ok params =>
      if ¬ IsObjectIdHex (params.ByName "id") then
        (respondWithError st StatusBadRequest "Invalid object ID" none, .returned)
      else
        let objID := ObjectIdHex (params.ByName "id")
        let op := callStore st (fs.openId objID) (fun res => .openId objID (errOf res))
        match op.1 with
        | .error .errNotFound =>
          (respondWithError op.2 StatusNotFound "Object does not exist" (some .errNotFound),
            .returned)
        | .error e =>
          (respondWithError op.2 StatusInternalServerError "Operational error" (some e),
            .returned)
        | .ok file =>
          let st1 := op.2
          let w := st1.w
          let w := if file.contentType ≠ "" then w.setHeader "Content-Type" file.contentType
            else w
          let w := if file.name ≠ "" then
              w.setHeader "Content-Disposition" ("inline; filename=\"" ++ file.name ++ "\"")
            else w
          let c := copyToResponse w file
          let st2 : St σ :=
            match c.1 with
            | some e =>
              respondWithError { st1 with w := c.2 } StatusInternalServerError
                "Operational error" (some e)
            | none => { st1 with w := c.2 }
          ((callStore st2 (fs.closeRead file.id) (fun e => .closeRead file.id e)).2, .returned)

/-- Method `ObjectWebHandler.About`. -/
def About {σ : Type} (fs : GridFS σ) : Handler σ :=
  fun _ st =>
    match getParams st with
    | .error v => (st, .panicked v)
    | .ok params =>
      if ¬ IsObjectIdHex (params.ByName "id") then
        (respondWithError st StatusBadRequest "Invalid object ID" none, .returned)
      else
        let objID := ObjectIdHex (params.ByName "id")
        let fd := callStore st (fs.findId objID) (fun res => .findId objID (errOf res))
        match fd.1 with
        | .error .errNotFound =>
          (respondWithError fd.2 StatusNotFound "Object does not exist" (some .errNotFound),
            .returned)
        | .error e =>
          (respondWithError fd.2 StatusInternalServerError "Operational error" (some e),
            .returned)
        | .ok meta => ({ fd.2 with w := fd.2.w.Write (.json meta.toJson) }, .returned)

/-- Method `ObjectWebHandler.Delete`. -/
def Delete {σ : Type} (_fs : GridFS σ) : Handler σ :=
  fun _ st => (respondWithError st StatusNotImplemented "Not implemented" none, .returned)

end ObjectWebHandler

/-! ## `main.go`: middleware chains and route table -/

/-- The chain `defaultChain`. -/
def defaultChain {σ : Type} : List (Middleware σ) :=
  [ClearHandler, LoggingHandler, RecoverHandler, InfoHeadersHandler]

/-- The middleware `jsonTypeHandler`. -/
def jsonTypeHandler {σ : Type} : Middleware σ :=
  NewContentTypeHandler ["application/json"]

/-- The chain `jsonChain`. -/
def jsonChain {σ : Type} : List (Middleware σ) :=
  [ClearHandler, LoggingHandler, RecoverHandler, jsonTypeHandler, InfoHeadersHandler,
    JSONRenderingHandler]

/-- One registration of the router: method, path pattern and the
`httprouter.Handle` registered for them. -/
structure Route (σ : Type) where
  method : String
  path : String
  handle : Params → Handler σ

/-- The route table of `main`. -/
def routes {σ : Type} (fs : GridFS σ) : List (Route σ) :=
  [ { method := "HEAD", path := "/buckets/:name",
      handle := wrapHandler (chainThen jsonChain (BucketWebHandler.CheckExists fs)) },
    { method := "GET", path := "/buckets/:name",
      handle := wrapHandler (chainThen jsonChain (BucketWebHandler.Retreive fs)) },
    { method := "DELETE", path := "/buckets/:name",
      handle := wrapHandler (chainThen jsonChain (BucketWebHandler.Delete fs)) },
    { method := "POST", path := "/objects",
      handle := wrapHandler (chainThen defaultChain (ObjectWebHandler.Create fs)) },
    { method := "PUT", path := "/objects/:id",
      handle := wrapHandler (chainThen jsonChain (ObjectWebHandler.Update fs)) },
    { method := "HEAD", path := "/objects/:id",
      handle := wrapHandler (chainThen jsonChain (ObjectWebHandler.CheckExists fs)) },
    { method := "GET", path := "/objects/:id",
      handle := wrapHandler (chainThen defaultChain (ObjectWebHandler.Download fs)) },
    { method := "GET", path := "/objects/:id/meta",
      handle := wrapHandler (chainThen jsonChain (ObjectWebHandler.About fs)) },
    { method := "DELETE", path := "/objects/:id",
      handle := wrapHandler (chainThen jsonChain (ObjectWebHandler.Delete fs)) } ]

/-- The handle registered for a method and a path pattern. -/
def findRoute {σ : Type} (rs : List (Route σ)) (method path : String) :
    Option (Params → Handler σ) :=
  match rs with
  | [] => none
  | rt :: rest =>
    if rt.method = method ∧ rt.path = path then some rt.handle else findRoute rest method path

/-! ## Specification-side notions -/

/-- Spec side of the negotiation: a header value truncated at its first `;`
(the whole value when it holds none). -/
def truncateAtSemicolon (v : String) : String :=
  String.mk (v.data.takeWhile (fun c => c ≠ ';'))

/-- The value of the last plain field `name` among the parts, `dflt` when
there is none. -/
def lastFieldValue (name : String) (parts : List Part) (dflt : String) : String :=
  match (parts.filter (ObjectWebHandler.isField name)).getLast? with
  | some p => p.data
  | none => dflt

/-- The metadata `Create` accumulates: the correlation identifier under `cid`
and, when the parts hold an `extra.bucket` field, the value of the last one
under `bucket`. -/
def expectedMeta (cid : String) (parts : List Part) : GoMap :=
  ("cid", .str cid) ::
    (match (parts.filter (ObjectWebHandler.isField "extra.bucket")).getLast? with
      | some p => [("bucket", .str p.data)]
      | none => [])

/-- The last content-bearing part among the parts. -/
def lastObjectPart (parts : List Part) : Option Part :=
  (parts.filter ObjectWebHandler.isObjectPart).getLast?

/-- What one pass through the loop of `Create` does to `obj` when the part is
read to its end. -/
def objStep (part : Part) (obj : ObjectMeta) : ObjectMeta :=
  if ObjectWebHandler.isField "filename" part then { obj with Filename := part.data }
  else if ObjectWebHandler.isField "content_type" part then { obj with ContentType := part.data }
  else if ObjectWebHandler.isField "extra.bucket" part then
    { obj with Metadata := obj.Metadata.set "bucket" (.str part.data) }
  else obj

/-- The handle a logged call created, as `fs.Create` returns it. -/
def createdBy : StoreCall → Option GridFile
  | .create name (some id) => some (GridFile.new id name)
  | _ => none

/-- The handle of the entry most recently created according to a call log. -/
def lastCreated : List StoreCall → Option GridFile
  | [] => none
  | c :: rest =>
    match lastCreated rest with
    | some f => some f
    | none => createdBy c

/-- The entries closed according to a call log, in order, with the document
fields they were closed with. -/
def closedFiles : List StoreCall → List GridFile
  | [] => []
  | .close f _ :: rest => f :: closedFiles rest
  | _ :: rest => closedFiles rest

/-! ## A small in-memory store, used to run the handlers on concrete requests -/

/-- State of the in-memory store: a counter for identifiers, the bytes written
to entries not closed yet, and the stored records with their content. -/
structure MemStore where
  nextId : Nat
  pending : List (ObjectId × String)
  files : List (ObjectMeta × String)
  deriving DecidableEq, Repr

/-- The bytes written so far to the entry `id`. -/
def MemStore.written (s : MemStore) (id : ObjectId) : String :=
  String.join ((s.pending.filter (fun p => p.1 = id)).map (fun p => p.2))

/-- The stored record with identifier `id`. -/
def MemStore.find (s : MemStore) (id : ObjectId) : Option (ObjectMeta × String) :=
  s.files.find? (fun p => p.1.ID = id)

/-- The records tagged with bucket `b`. -/
def MemStore.inBucket (s : MemStore) (b : String) : List ObjectMeta :=
  (s.files.map (fun p => p.1)).filter (fun m => m.Metadata.get "bucket" = some (.str b))

/-- An in-memory store in which every operation succeeds and a lookup of an
unknown identifier reports `ErrNotFound`. -/
def memFS : GridFS MemStore :=
  { ensureIndexKey := fun _ s => (none, s)
    count := fun b s => (.ok (s.inBucket b).length, s)
    iterAll := fun b s => ((s.inBucket b, none), s)
    findId := fun id s =>
      (match s.find id with
        | some p => .ok p.1
        | none => .error .errNotFound, s)
    create := fun _ s => (.ok { bytes := [s.nextId] }, { s with nextId := s.nextId + 1 })
    write := fun id data s => (none, { s with pending := s.pending ++ [(id, data)] })
    close := fun f s =>
      (none, { s with
        files := s.files ++
          [({ ID := f.id, Filename := f.name, ContentType := f.contentType,
              Size := (s.written f.id).length, ChunkSize := 261120, CheckSum := "",
              CreatedOn := "", Metadata := f.meta }, s.written f.id)] })
    openId := fun id s =>
      (match s.find id with
        | some p =>
          .ok { id := id, name := p.1.Filename, contentType := p.1.ContentType, data := p.2,
                readErr := none }
        | none => .error .errNotFound, s)
    closeRead := fun _ s => (none, s) }

/-- The in-memory store with a read side that breaks off: every object opens,
delivers three bytes and then fails to read. -/
def brokenReadFS : GridFS MemStore :=
  { memFS with
    openId := fun id s =>
      (.ok { id := id, name := "a.txt", contentType := "text/plain", data := "hel",
             readErr := some (.other "unexpected EOF") }, s) }

/-- The empty in-memory store. -/
def MemStore.empty : MemStore := { nextId := 1, pending := [], files := [] }

/-- The state in which the server enters a handler chain over the empty
in-memory store: fresh response writer, no context entry, empty call log. -/
def St.start : St MemStore :=
  { w := ResponseWriter.fresh, ctx := none, store := MemStore.empty, calls := [] }

/-- The document fields `Create` gives the entry `id` when it closes it with the
accumulated `obj`. -/
def finalFile (id : ObjectId) (obj : ObjectMeta) : GridFile :=
  { id := id, name := obj.Filename, contentType := obj.ContentType, meta := obj.Metadata }

/-- A plain field part that reads to its end. -/
def Part.field (name value : String) : Part :=
  { formName := name, fileName := "", data := value, readErr := none }

/-- A content-bearing part that reads to its end. -/
def Part.object (fileName data : String) : Part :=
  { formName := "object", fileName := fileName, data := data, readErr := none }

/-- The part `p` with a reader that fails after the bytes of `p`. -/
def Part.failing (p : Part) : Part :=
  { p with readErr := some (.other "unexpected EOF") }

/-- What the loop of `Retreive` appends for one record. -/
def strippedRecord (meta : ObjectMeta) : ObjectMeta :=
  match meta.Metadata.get "bucket" with
  | some _ => { meta with Metadata := meta.Metadata.delete "bucket" }
  | none => meta

/-- A handler result that answers with status `code` and has made no call to
the store. -/
def answersWithoutStore {σ : Type} (st : St σ) (code : Nat) (out : St σ × Exit) : Prop :=
  out.1.w.status = some code ∧ out.1.calls = st.calls ∧ out.1.store = st.store ∧
    out.2 = .returned

/-- A request without a body. -/
def plainRequest (method url : String) (header : HttpHeader) : Request :=
  { Method := method, URL := url, Header := header,
    multipartReader := .error (.other "request Content-Type isn't multipart/form-data") }

/-- The start state after the router has published the parameters `ps`. -/
def St.withParams (ps : Params) : St MemStore :=
  { St.start with ctx := some ps }

/-- An in-memory store holding one object tagged with bucket `b1`. -/
def MemStore.sample : MemStore :=
  { nextId := 2, pending := [],
    files := [({ ID := { bytes := [1] }, Filename := "a.txt", ContentType := "text/plain",
                 Size := 5, ChunkSize := 261120, CheckSum := "", CreatedOn := "",
                 Metadata := [("cid", .str "req-42"), ("bucket", .str "b1")] }, "hello")] }

/-- The body `net/http` sends for what the handler wrote: on a `HEAD` request
the server eats every body write, on any other method it sends them all. -/
def sentBody (method : String) (w : ResponseWriter) : List Chunk :=
  if method = "HEAD" then [] else w.body

/-- The Error Envelope with the given title and message and no details, as one
JSON document of the body. -/
def envelopeChunk (title message : String) : Chunk :=
  .json (errorEnvelope { Title := title, Message := message, Details := [] })

/-- The handler returns normally having committed status `code` and written
exactly `body`. -/
def writes {σ : Type} (out : St σ × Exit) (code : Nat) (body : List Chunk) : Prop :=
  out.2 = .returned ∧ out.1.w.status = some code ∧ out.1.w.body = body

/-- The handle returns normally and the client of a request with this method
receives status `code` and exactly the body `body`. -/
def answers {σ : Type} (method : String) (out : St σ × Exit) (code : Nat)
    (body : List Chunk) : Prop :=
  out.2 = .returned ∧ out.1.w.status = some code ∧ sentBody method out.1.w = body

/-- The state in which the JSON pipeline enters the inner handler: parameters
published by `wrapHandler`, response header set by `JSONRenderingHandler`. -/
def jsonEntry {σ : Type} (ps : Params) (st : St σ) : St σ :=
  { w := st.w.setHeader "Content-Type" "application/json; charset=utf-8",
    ctx := some ps, store := st.store, calls := st.calls }

/-- The state in which the default pipeline enters the inner handler:
parameters published by `wrapHandler`. -/
def defaultEntry {σ : Type} (ps : Params) (st : St σ) : St σ :=
  { st with ctx := some ps }

/-- A multipart upload request without the header `X-Correlation-Id`. -/
def uploadRequestNoCid (parts : List Part) (final : GoError) : Request :=
  { Method := "POST", URL := "/objects",
    Header := [("Content-Type", ["multipart/form-data; boundary=xyz"])],
    multipartReader := .ok { parts := parts, final := final } }

/-- A multipart upload request whose body delivers `parts` and then ends with
`final`. -/
def uploadRequest (parts : List Part) (final : GoError) : Request :=
  { Method := "POST", URL := "/objects",
    Header := [("Content-Type", ["multipart/form-data; boundary=xyz"]),
               ("X-Correlation-Id", ["req-42"])],
    multipartReader := .ok { parts := parts, final := final } }

/-! ## Content-type negotiation -/

theorem indexRuneAux_ge (c : Char) (l : List Char) : -1 ≤ indexRuneAux c l := by
  induction l with
  | nil => simp [indexRuneAux]
  | cons x rest ih =>
    simp only [indexRuneAux]
    split
    · omega
    · split <;> omega

theorem take_indexRuneAux (c : Char) (l : List Char) :
    (if indexRuneAux c l ≠ -1 then l.take (indexRuneAux c l).toNat else l)
      = l.takeWhile (fun x => x ≠ c) := by
  induction l with
  | nil => simp [indexRuneAux]
  | cons x rest ih =>
    have hge := indexRuneAux_ge c rest
    by_cases hx : x = c
    · simp [indexRuneAux, hx, List.takeWhile]
    · by_cases hi : indexRuneAux c rest = -1
      · rw [if_neg (by simpa using hi)] at ih
        simp only [indexRuneAux, hx, hi, if_true, if_false, ne_eq, not_true_eq_false]
        rw [List.takeWhile_cons_of_pos (by simpa using hx), ← ih]
      · rw [if_pos hi] at ih
        have hnn : 0 ≤ indexRuneAux c rest := by omega
        have h1 : (indexRuneAux c rest + 1).toNat = (indexRuneAux c rest).toNat + 1 := by
          omega
        have h2 : indexRuneAux c rest + 1 ≠ -1 := by omega
        simp only [indexRuneAux, hx, hi, if_true, if_false, ne_eq, h2, not_false_eq_true, h1,
          List.take_succ_cons]
        rw [List.takeWhile_cons_of_pos (by simpa using hx), ← ih]

theorem isContentType_iff (h : HttpHeader) (contentType : String) :
    isContentType h contentType = true
      ↔ truncateAtSemicolon (h.Get "Content-Type") = contentType := by
  have key := take_indexRuneAux ';' (h.Get "Content-Type").data
  unfold isContentType truncateAtSemicolon stringsIndexRune sliceTo
  rw [← key]
  by_cases hi : indexRuneAux ';' (HttpHeader.Get h "Content-Type").data = -1
  · simp [hi]
  · simp [hi]

theorem anyContentType_iff (h : HttpHeader) (cts : List String) :
    anyContentType h cts = true
      ↔ ∃ ct ∈ cts, truncateAtSemicolon (h.Get "Content-Type") = ct := by
  induction cts with
  | nil => simp [anyContentType]
  | cons ct rest ih =>
    by_cases hc : isContentType h ct = true
    · have := (isContentType_iff h ct).1 hc
      simp [anyContentType, hc, this]
    · have hne : ¬ truncateAtSemicolon (h.Get "Content-Type") = ct :=
        fun e => hc ((isContentType_iff h ct).2 e)
      have hstep : anyContentType h (ct :: rest) = anyContentType h rest := by
        simp [anyContentType, hc]
      rw [hstep, ih]
      constructor
      · rintro ⟨c, hm, e⟩
        exact ⟨c, List.mem_cons_of_mem _ hm, e⟩
      · rintro ⟨c, hm, e⟩
        rcases List.mem_cons.1 hm with hm | hm
        · exact absurd (hm ▸ e) hne
        · exact ⟨c, hm, e⟩

theorem WriteHeader_status_of_none (w : ResponseWriter) (code : Nat) (h : w.status = none) :
    (w.WriteHeader code).status = some code := by
  simp [ResponseWriter.WriteHeader, h]

theorem WriteHeader_status_of_some (w : ResponseWriter) (code c : Nat) (h : w.status = some c) :
    w.WriteHeader code = w := by
  simp [ResponseWriter.WriteHeader, h]

theorem httpError_status_of_none (w : ResponseWriter) (msg : String) (code : Nat)
    (h : w.status = none) : (httpError w msg code).status = some code := by
  simp [httpError, ResponseWriter.Write, ResponseWriter.WriteHeader, ResponseWriter.setHeader, h]

/-- C1: under `NewContentTypeHandler`, a PUT, POST or PATCH request reaches the
inner handler exactly when its Content-Type value truncated at the first `;`
equals an entry of the allow-list; otherwise the answer is the 415 of
`http.Error`, the same whatever the inner handler is (it is not invoked). Any
other method, GET, HEAD and DELETE among them, always reaches the inner
handler. -/
theorem contentTypeHandler_gate {σ : Type} (contentTypes : List String) (next : Handler σ)
    (r : Request) (st : St σ) :
    ((r.Method = "PUT" ∨ r.Method = "POST" ∨ r.Method = "PATCH") →
      ((∃ ct ∈ contentTypes, truncateAtSemicolon (r.Header.Get "Content-Type") = ct) →
        NewContentTypeHandler contentTypes next r st = next r st) ∧
      ((¬ ∃ ct ∈ contentTypes, truncateAtSemicolon (r.Header.Get "Content-Type") = ct) →
        (∃ msg, ∀ inner : Handler σ, NewContentTypeHandler contentTypes inner r st
            = ({ st with w := httpError st.w msg 415 }, Exit.returned)) ∧
        (st.w.status = none →
          (NewContentTypeHandler contentTypes next r st).1.w.status = some 415))) ∧
    ((r.Method = "GET" ∨ r.Method = "HEAD" ∨ r.Method = "DELETE") →
      NewContentTypeHandler contentTypes next r st = next r st) := by
  refine ⟨fun hm => ⟨fun hex => ?_, fun hno => ⟨?_, fun hs => ?_⟩⟩, fun hm => ?_⟩
  · have ha := (anyContentType_iff r.Header contentTypes).2 hex
    simp [NewContentTypeHandler, hm, ha]
  · have ha : ¬ anyContentType r.Header contentTypes = true :=
      fun h => hno ((anyContentType_iff r.Header contentTypes).1 h)
    refine ⟨"Unsupported content type " ++ goQuote (r.Header.Get "Content-Type")
        ++ "; expected one of [" ++ String.intercalate " " (contentTypes.map goQuote) ++ "]",
      fun inner => ?_⟩
    simp [NewContentTypeHandler, hm, ha, StatusUnsupportedMediaType]
  · have ha : ¬ anyContentType r.Header contentTypes = true :=
      fun h => hno ((anyContentType_iff r.Header contentTypes).1 h)
    simp [NewContentTypeHandler, hm, ha, StatusUnsupportedMediaType,
      httpError_status_of_none _ _ _ hs]
  · have hn : ¬ (r.Method = "PUT" ∨ r.Method = "POST" ∨ r.Method = "PATCH") := by
      rcases hm with h | h | h <;> simp [h]
    simp [NewContentTypeHandler, hn]

/-! ## The error response -/

/-- The message `respondWithError` puts in the envelope. -/
theorem respondWithErrorW_eq (w : ResponseWriter) (code : Nat) (title : String)
    (err : Option GoError) :
    respondWithErrorW w code title err
      = (w.WriteHeader code).Write (.json (errorEnvelope
          { Title := title, Message := (err.map GoError.Error).getD "", Details := [] })) := by
  cases err <;> rfl

theorem respondWithError_calls {σ : Type} (st : St σ) (code : Nat) (title : String)
    (err : Option GoError) : (respondWithError st code title err).calls = st.calls := rfl

theorem respondWithError_store {σ : Type} (st : St σ) (code : Nat) (title : String)
    (err : Option GoError) : (respondWithError st code title err).store = st.store := rfl

theorem respondWithError_status {σ : Type} (st : St σ) (code : Nat) (title : String)
    (err : Option GoError) (h : st.w.status = none) :
    (respondWithError st code title err).w.status = some code := by
  simp [respondWithError, respondWithErrorW_eq, ResponseWriter.Write,
    ResponseWriter.WriteHeader, h]

theorem respondWithError_body {σ : Type} (st : St σ) (code : Nat) (title : String)
    (err : Option GoError) :
    (respondWithError st code title err).w.body
      = st.w.body ++ [.json (errorEnvelope
          { Title := title, Message := (err.map GoError.Error).getD "", Details := [] })] := by
  cases hst : st.w.status <;>
    simp [respondWithError, respondWithErrorW_eq, ResponseWriter.Write,
      ResponseWriter.WriteHeader, hst]

/-! ## `Create`: media type check -/

/-- C2, as stated, fails: a Content-Type that is not `multipart/form-data` but
begins with these characters passes the prefix test of `Create`; the multipart
reader of the request then refuses it and the response is 400, not 415. -/
theorem create_non_multipart_counterexample :
    truncateAtSemicolon "multipart/form-datax" ≠ "multipart/form-data" ∧
    (ObjectWebHandler.Create memFS
      { Method := "POST", URL := "/objects",
        Header := [("Content-Type", ["multipart/form-datax"])],
        multipartReader := .error (.other "request Content-Type isn't multipart/form-data") }
      St.start).1.w.status = some 400 := by
  decide

/-- C2, amended: a request to `Create` whose Content-Type value does not begin
with `multipart/form-data` is answered 415, and one that begins with it but
for which no multipart reader can be built is answered 400; in both cases no
call is made to the store. -/
theorem create_rejects_non_multipart {σ : Type} (fs : GridFS σ) (r : Request) (st : St σ)
    (hs : st.w.status = none) :
    (stringsHasPrefix (r.Header.Get "Content-Type") "multipart/form-data" = false →
      (ObjectWebHandler.Create fs r st).1.w.status = some 415 ∧
      (ObjectWebHandler.Create fs r st).1.calls = st.calls ∧
      (ObjectWebHandler.Create fs r st).1.store = st.store) ∧
    (∀ e, stringsHasPrefix (r.Header.Get "Content-Type") "multipart/form-data" = true →
      r.multipartReader = .error e →
      (ObjectWebHandler.Create fs r st).1.w.status = some 400 ∧
      (ObjectWebHandler.Create fs r st).1.calls = st.calls ∧
      (ObjectWebHandler.Create fs r st).1.store = st.store) := by
  have hs1 : (ObjectWebHandler.createEntry st).w.status = none := hs
  constructor
  · intro hp
    simp only [ObjectWebHandler.Create, hp, Bool.false_eq_true, not_false_eq_true, if_true]
    refine ⟨?_, rfl, rfl⟩
    exact respondWithError_status _ _ _ _ hs1
  · intro e hp he
    simp only [ObjectWebHandler.Create, hp, not_true_eq_false, if_false, he]
    refine ⟨?_, rfl, rfl⟩
    exact respondWithError_status _ _ _ _ hs1

theorem create_rejects_non_multipart_witness :
    (ObjectWebHandler.Create memFS
      { Method := "POST", URL := "/objects",
        Header := [("Content-Type", ["application/json"])],
        multipartReader := .error (.other "request Content-Type isn't multipart/form-data") }
      St.start).1.w.status = some 415 :=
  ((create_rejects_non_multipart memFS _ St.start rfl).1 (by decide)).1

/-! ## `Create`: the loop over the parts -/

theorem readResult_ne_eof (r : Option GoError) (e : GoError) (h : readResult r = some e) :
    e ≠ .eof := by
  unfold readResult at h
  split at h
  · exact absurd h (by simp)
  · rename_i hne
    intro he
    subst he
    exact hne h

/-- A part that is not content-bearing leaves the store and `file` alone: the
pass either updates `obj` or breaks with a read error. -/
theorem createStep_of_not_object {σ : Type} (fs : GridFS σ) (p : Part) (obj : ObjectMeta)
    (file : Option GridFile) (st : St σ) (hp : ObjectWebHandler.isObjectPart p = false) :
    ObjectWebHandler.createStep fs p obj file st = .next (objStep p obj) file st ∨
      ∃ e, e ≠ GoError.eof ∧ readResult p.readErr = some e ∧
        ObjectWebHandler.createStep fs p obj file st = .brk e obj file st := by
  unfold ObjectWebHandler.createStep objStep
  cases hr : readResult p.readErr with
  | none =>
    left
    by_cases h1 : ObjectWebHandler.isField "filename" p = true
    · simp [h1]
    · by_cases h2 : ObjectWebHandler.isField "content_type" p = true
      · simp [h1, h2]
      · by_cases h3 : ObjectWebHandler.isField "extra.bucket" p = true
        · simp [h1, h2, h3]
        · simp [h1, h2, h3, hp]
  | some e =>
    have hne := readResult_ne_eof _ _ hr
    by_cases h1 : ObjectWebHandler.isField "filename" p = true
    · right; exact ⟨e, hne, rfl, by simp [h1]⟩
    · by_cases h2 : ObjectWebHandler.isField "content_type" p = true
      · right; exact ⟨e, hne, rfl, by simp [h1, h2]⟩
      · by_cases h3 : ObjectWebHandler.isField "extra.bucket" p = true
        · right; exact ⟨e, hne, rfl, by simp [h1, h2, h3]⟩
        · left
          simp [h1, h2, h3, hp]

/-- Without a content-bearing part the loop of `Create` never touches the
store: it runs through, or it breaks on the read error of a field. -/
theorem createLoop_of_no_object {σ : Type} (fs : GridFS σ) (parts : List Part)
    (obj : ObjectMeta) (file : Option GridFile) (st : St σ)
    (hno : ∀ p ∈ parts, ObjectWebHandler.isObjectPart p = false) :
    (∃ obj1, ObjectWebHandler.createLoop fs parts obj file st = .next obj1 file st) ∨
      ∃ e obj1, e ≠ GoError.eof ∧ (∃ p ∈ parts, readResult p.readErr = some e) ∧
        ObjectWebHandler.createLoop fs parts obj file st = .brk e obj1 file st := by
  induction parts generalizing obj with
  | nil => exact Or.inl ⟨obj, rfl⟩
  | cons p rest ih =>
    have hp := hno p (List.mem_cons_self _ _)
    have hrest : ∀ q ∈ rest, ObjectWebHandler.isObjectPart q = false :=
      fun q hq => hno q (List.mem_cons_of_mem _ hq)
    rcases createStep_of_not_object fs p obj file st hp with h | ⟨e, hne, hr, h⟩
    · rcases ih (objStep p obj) hrest with ⟨o, ho⟩ | ⟨e, o, hne, ⟨q, hq, hqr⟩, ho⟩
      · left
        exact ⟨o, by simp [ObjectWebHandler.createLoop, h, ho]⟩
      · right
        exact ⟨e, o, hne, ⟨q, List.mem_cons_of_mem _ hq, hqr⟩,
          by simp [ObjectWebHandler.createLoop, h, ho]⟩
    · right
      exact ⟨e, obj, hne, ⟨p, List.mem_cons_self _ _, hr⟩,
        by simp [ObjectWebHandler.createLoop, h]⟩

theorem createFinish_no_file {σ : Type} (fs : GridFS σ) (err : GoError) (obj : ObjectMeta)
    (st : St σ) :
    ObjectWebHandler.createFinish fs err obj none st
      = if err ≠ .eof then
          respondWithError st StatusBadRequest "Failed to process multipart form" (some err)
        else
          respondWithError st StatusBadRequest "Bad request"
            (some (.other "No object has been uploaded")) := by
  unfold ObjectWebHandler.createFinish
  split <;> rfl

theorem Create_of_multipart {σ : Type} (fs : GridFS σ) (r : Request) (st : St σ)
    (body : MultipartStream)
    (hct : stringsHasPrefix (r.Header.Get "Content-Type") "multipart/form-data" = true)
    (hbody : r.multipartReader = .ok body) :
    ObjectWebHandler.Create fs r st
      = (ObjectWebHandler.createTail fs body.final
          (ObjectWebHandler.createLoop fs body.parts (ObjectWebHandler.createInit r) none
            (ObjectWebHandler.createEntry st)), Exit.returned) := by
  simp only [ObjectWebHandler.Create, hct, not_true_eq_false, if_false, hbody]

/-- C3: a multipart request to `Create` that carries no content-bearing part
(no part with form name `object` and a non-empty file name) is answered 400
without any call to the store, whatever fields it carries; when every field
reads to its end and the stream ends cleanly, the body is the envelope
"No object has been uploaded". -/
theorem create_without_object_part {σ : Type} (fs : GridFS σ) (r : Request) (st : St σ)
    (body : MultipartStream) (hs : st.w.status = none)
    (hct : stringsHasPrefix (r.Header.Get "Content-Type") "multipart/form-data" = true)
    (hbody : r.multipartReader = .ok body)
    (hno : ∀ p ∈ body.parts, ObjectWebHandler.isObjectPart p = false) :
    (ObjectWebHandler.Create fs r st).1.w.status = some 400 ∧
    (ObjectWebHandler.Create fs r st).1.calls = st.calls ∧
    (ObjectWebHandler.Create fs r st).1.store = st.store ∧
    ((∀ p ∈ body.parts, readResult p.readErr = none) → body.final = .eof →
      (ObjectWebHandler.Create fs r st).1.w.body
        = st.w.body ++ [.json (errorEnvelope
            { Title := "Bad request", Message := "No object has been uploaded",
              Details := [] })]) := by
  have hs1 : (ObjectWebHandler.createEntry st).w.status = none := hs
  rw [Create_of_multipart fs r st body hct hbody]
  rcases createLoop_of_no_object fs body.parts (ObjectWebHandler.createInit r) none
      (ObjectWebHandler.createEntry st) hno with ⟨o, ho⟩ | ⟨e, o, hne, ⟨q, hq, hqr⟩, ho⟩
  · simp only [ho, ObjectWebHandler.createTail, createFinish_no_file]
    refine ⟨?_, ?_, ?_, ?_⟩
    · split <;> exact respondWithError_status _ _ _ _ hs1
    · split <;> rfl
    · split <;> rfl
    · intro _ hend
      simp only [hend, ne_eq, not_true_eq_false, if_false, respondWithError_body]
      rfl
  · simp only [ho, ObjectWebHandler.createTail, createFinish_no_file, ne_eq, hne,
      not_false_eq_true, if_true]
    refine ⟨respondWithError_status _ _ _ _ hs1, rfl, rfl, ?_⟩
    intro hwf _
    rw [hwf q hq] at hqr
    exact absurd hqr (by simp)

theorem create_without_object_part_witness :
    (ObjectWebHandler.Create memFS
      (uploadRequest [Part.field "filename" "a.txt", Part.field "extra.bucket" "b1"] .eof)
      St.start).1.w.status = some 400 :=
  (create_without_object_part memFS _ St.start _ rfl (by decide) rfl (by decide)).1

theorem isField_of_isObjectPart (name : String) (p : Part)
    (hp : ObjectWebHandler.isObjectPart p = true) : ObjectWebHandler.isField name p = false := by
  simp only [ObjectWebHandler.isObjectPart, Bool.and_eq_true, decide_eq_true_eq,
    bne_iff_ne, ne_eq] at hp
  simp [ObjectWebHandler.isField, hp.2]

theorem objStep_of_isObjectPart (p : Part) (obj : ObjectMeta)
    (hp : ObjectWebHandler.isObjectPart p = true) : objStep p obj = obj := by
  simp [objStep, isField_of_isObjectPart _ p hp]

theorem lastCreated_append (a b : List StoreCall) :
    lastCreated (a ++ b) = (lastCreated b).orElse (fun _ => lastCreated a) := by
  induction a with
  | nil => cases h : lastCreated b <;> simp [lastCreated, h]
  | cons c rest ih =>
    rw [List.cons_append]
    simp only [lastCreated]
    rw [ih]
    cases hb : lastCreated b <;> simp [Option.orElse]

theorem closedFiles_append (a b : List StoreCall) :
    closedFiles (a ++ b) = closedFiles a ++ closedFiles b := by
  induction a with
  | nil => rfl
  | cons c rest ih => cases c <;> simp [closedFiles, ih]

/-- The calls `io.Copy(file, part)` adds to the log: one `write` unless the part
is empty. -/
theorem copyToFile_spec {σ : Type} (fs : GridFS σ) (f : GridFile) (p : Part) (st : St σ) :
    (ObjectWebHandler.copyToFile fs f p st).2.w = st.w ∧
    (ObjectWebHandler.copyToFile fs f p st).2.ctx = st.ctx ∧
    ∃ new, (ObjectWebHandler.copyToFile fs f p st).2.calls = st.calls ++ new ∧
      closedFiles new = [] ∧ lastCreated new = none ∧
      ((ObjectWebHandler.copyToFile fs f p st).1 = none →
        readResult p.readErr = none ∧ ∀ c ∈ new, c.failed = false) ∧
      (∀ e, (ObjectWebHandler.copyToFile fs f p st).1 = some e → readResult p.readErr = none →
        ∃ c ∈ new, c.failed = true) := by
  unfold ObjectWebHandler.copyToFile
  by_cases hd : p.data = ""
  · rw [if_pos hd]
    refine ⟨rfl, rfl, [], by simp, rfl, rfl, fun h => ⟨h, by simp⟩, fun e h1 h2 => ?_⟩
    rw [h2] at h1
    exact absurd h1 (by simp)
  · rw [if_neg hd]
    cases hw : (fs.write f.id p.data st.store).1 with
    | none =>
      simp only [callStore, hw]
      refine ⟨by trivial, by trivial, [.write f.id p.data none], rfl, rfl, rfl,
        fun h => ⟨h, by simp [StoreCall.failed]⟩, fun e h1 h2 => ?_⟩
      rw [h2] at h1
      exact absurd h1 (by simp)
    | some e =>
      simp only [callStore, hw]
      refine ⟨by trivial, by trivial, [.write f.id p.data (some e)], rfl, rfl, rfl,
        fun h => absurd h (by simp), fun _ _ _ => ⟨_, List.mem_singleton_self _, rfl⟩⟩

/-- One pass through the loop of `Create` that lets the loop go on: what it
does to `obj`, `file`, the response writer and the call log. -/
theorem createStep_next {σ : Type} (fs : GridFS σ) (p : Part) (obj obj1 : ObjectMeta)
    (file file1 : Option GridFile) (st st1 : St σ)
    (h : ObjectWebHandler.createStep fs p obj file st = .next obj1 file1 st1) :
    obj1 = objStep p obj ∧ st1.w = st.w ∧ st1.ctx = st.ctx ∧
    ∃ new, st1.calls = st.calls ++ new ∧ closedFiles new = [] ∧
      (∀ c ∈ new, c.failed = false) ∧
      (if ObjectWebHandler.isObjectPart p = true then
        (∃ id, lastCreated new = some (GridFile.new id p.fileName)) ∧ file1 = lastCreated new
       else new = [] ∧ file1 = file ∧ st1 = st) := by
  by_cases hp : ObjectWebHandler.isObjectPart p = true
  · simp only [hp, if_true]
    have hf := fun n => isField_of_isObjectPart n p hp
    simp only [ObjectWebHandler.createStep, hf, Bool.false_eq_true, if_false, hp, if_true]
      at h
    cases hc : (fs.create p.fileName st.store).1 with
    | error e => simp [callStore, hc] at h
    | ok id =>
      simp only [callStore, hc] at h
      generalize hst2 : ({ st with
        store := (fs.create p.fileName st.store).2,
        calls := st.calls ++ [StoreCall.create p.fileName (okId (Except.ok id))] } : St σ)
        = st2 at h
      obtain ⟨hw, hx, new, hcalls, hcl, hlc, hok, _⟩ := copyToFile_spec fs
        (GridFile.new id p.fileName) p st2
      cases hcp : (ObjectWebHandler.copyToFile fs (GridFile.new id p.fileName) p st2).1 with
      | some e => simp [hcp] at h
      | none =>
        simp only [hcp, ObjectWebHandler.LoopExit.next.injEq] at h
        obtain ⟨h1, h2, h3⟩ := h
        subst h1 h2 h3
        refine ⟨(objStep_of_isObjectPart p obj hp).symm, ?_, ?_,
          [.create p.fileName (some id)] ++ new, ?_, ?_, ?_, ⟨id, ?_⟩, ?_⟩
        · rw [hw, ← hst2]
        · rw [hx, ← hst2]
        · rw [hcalls, ← hst2]
          simp [okId]
        · rw [closedFiles_append, hcl]
          rfl
        · intro c hc
          rcases List.mem_append.1 hc with hc | hc
          · rw [List.mem_singleton.1 hc]
            rfl
          · exact (hok hcp).2 c hc
        · rw [lastCreated_append, hlc]
          rfl
        · rw [lastCreated_append, hlc]
          rfl
  · have hp1 : ObjectWebHandler.isObjectPart p = false := by simpa using hp
    simp only [hp, if_false]
    rcases createStep_of_not_object fs p obj file st hp1 with h1 | ⟨e, _, _, h1⟩
    · rw [h1] at h
      simp only [ObjectWebHandler.LoopExit.next.injEq] at h
      obtain ⟨h1, h2, h3⟩ := h
      exact ⟨h1.symm, by rw [h3], by rw [h3], [], by simp [h3], rfl, by simp, rfl,
        h2.symm, h3.symm⟩
    · rw [h1] at h
      exact absurd h (by simp)

theorem getLast?_cons_eq {α : Type} (a : α) (l : List α) :
    (a :: l).getLast? = some (l.getLast?.getD a) := by
  cases l with
  | nil => rfl
  | cons b t =>
    rw [List.getLast?_cons_cons]
    cases h : (b :: t).getLast? with
    | none => simp at h
    | some x => rfl

theorem lastObjectPart_cons (p : Part) (rest : List Part) :
    lastObjectPart (p :: rest)
      = match lastObjectPart rest with
        | some q => some q
        | none => if ObjectWebHandler.isObjectPart p = true then some p else none := by
  unfold lastObjectPart
  by_cases hp : ObjectWebHandler.isObjectPart p = true
  · rw [List.filter_cons_of_pos hp, getLast?_cons_eq]
    cases (List.filter ObjectWebHandler.isObjectPart rest).getLast? <;> simp [hp]
  · rw [List.filter_cons_of_neg hp]
    cases (List.filter ObjectWebHandler.isObjectPart rest).getLast? <;> simp [hp]

/-- Invariant of the loop of `Create` while it goes on: `obj` accumulates the
fields, the response writer is untouched, nothing is closed, every call
succeeded, and `file` is the entry created for the last content-bearing part. -/
theorem createLoop_next {σ : Type} (fs : GridFS σ) (parts : List Part) (obj obj1 : ObjectMeta)
    (file file1 : Option GridFile) (st st1 : St σ)
    (h : ObjectWebHandler.createLoop fs parts obj file st = .next obj1 file1 st1) :
    obj1 = parts.foldl (fun o p => objStep p o) obj ∧ st1.w = st.w ∧ st1.ctx = st.ctx ∧
    ∃ new, st1.calls = st.calls ++ new ∧ closedFiles new = [] ∧
      (∀ c ∈ new, c.failed = false) ∧
      (match lastObjectPart parts with
        | some q =>
          (∃ id, lastCreated new = some (GridFile.new id q.fileName)) ∧ file1 = lastCreated new
        | none => new = [] ∧ file1 = file ∧ st1 = st) := by
  induction parts generalizing obj file st with
  | nil =>
    simp only [ObjectWebHandler.createLoop, ObjectWebHandler.LoopExit.next.injEq] at h
    obtain ⟨h1, h2, h3⟩ := h
    subst h1 h2 h3
    exact ⟨rfl, rfl, rfl, [], by simp, rfl, by simp, rfl, rfl, rfl⟩
  | cons p rest ih =>
    simp only [ObjectWebHandler.createLoop] at h
    cases hstep : ObjectWebHandler.createStep fs p obj file st with
    | brk e o f s => simp [hstep] at h
    | ret s => simp [hstep] at h
    | next o f s =>
      simp only [hstep] at h
      obtain ⟨ho, hw, hx, new1, hc1, hcl1, hok1, hcase1⟩ :=
        createStep_next fs p obj o file f st s hstep
      obtain ⟨ho2, hw2, hx2, new2, hc2, hcl2, hok2, hcase2⟩ := ih o f s h
      refine ⟨by rw [ho2, ho]; rfl, hw2.trans hw, hx2.trans hx, new1 ++ new2, ?_, ?_, ?_, ?_⟩
      · rw [hc2, hc1, List.append_assoc]
      · rw [closedFiles_append, hcl1, hcl2]
        rfl
      · intro c hc
        rcases List.mem_append.1 hc with hc | hc
        · exact hok1 c hc
        · exact hok2 c hc
      · rw [lastObjectPart_cons]
        cases hl : lastObjectPart rest with
        | some q =>
          simp only [hl] at hcase2 ⊢
          obtain ⟨⟨id, hid⟩, hf⟩ := hcase2
          have : lastCreated (new1 ++ new2) = lastCreated new2 := by
            rw [lastCreated_append, hid]
            rfl
          rw [this]
          exact ⟨⟨id, hid⟩, hf⟩
        | none =>
          simp only [hl] at hcase2 ⊢
          obtain ⟨hn2, hf2, hs2⟩ := hcase2
          subst hn2
          rw [List.append_nil]
          by_cases hp : ObjectWebHandler.isObjectPart p = true
          · simp only [hp, if_true] at hcase1 ⊢
            exact ⟨hcase1.1, hf2.trans hcase1.2⟩
          · simp only [hp, if_false] at hcase1 ⊢
            exact ⟨hcase1.1, hf2.trans hcase1.2.1, hs2.trans hcase1.2.2⟩

theorem createLoop_append {σ : Type} (fs : GridFS σ) (a b : List Part) (obj : ObjectMeta)
    (file : Option GridFile) (st : St σ) :
    ObjectWebHandler.createLoop fs (a ++ b) obj file st
      = match ObjectWebHandler.createLoop fs a obj file st with
        | .next obj1 file1 st1 => ObjectWebHandler.createLoop fs b obj1 file1 st1
        | .brk e obj1 file1 st1 => .brk e obj1 file1 st1
        | .ret st1 => .ret st1 := by
  induction a generalizing obj file st with
  | nil => rfl
  | cons p rest ih =>
    rw [List.cons_append]
    simp only [ObjectWebHandler.createLoop]
    cases hstep : ObjectWebHandler.createStep fs p obj file st with
    | next o f s => simp only [ih]
    | brk e o f s => rfl
    | ret s => rfl

/-! ## `Create`: read errors -/

theorem createStep_field_error {σ : Type} (fs : GridFS σ) (p : Part) (obj : ObjectMeta)
    (file : Option GridFile) (st : St σ) (e : GoError)
    (hf : ObjectWebHandler.isField "filename" p = true ∨
      ObjectWebHandler.isField "content_type" p = true ∨
      ObjectWebHandler.isField "extra.bucket" p = true)
    (hr : readResult p.readErr = some e) :
    ObjectWebHandler.createStep fs p obj file st = .brk e obj file st := by
  unfold ObjectWebHandler.createStep
  by_cases h1 : ObjectWebHandler.isField "filename" p = true
  · simp [h1, hr]
  · by_cases h2 : ObjectWebHandler.isField "content_type" p = true
    · simp [h1, h2, hr]
    · have h3 : ObjectWebHandler.isField "extra.bucket" p = true := by
        rcases hf with h | h | h
        · exact absurd h h1
        · exact absurd h h2
        · exact h
      simp [h1, h2, h3, hr]

/-- After the loop has been left with an error other than `io.EOF`: the entry
held in `file`, when there is one, is closed and the response is 400. -/
theorem createFinish_error {σ : Type} (fs : GridFS σ) (err : GoError) (obj : ObjectMeta)
    (file : Option GridFile) (st : St σ) (he : err ≠ .eof) (hs : st.w.status = none) :
    (ObjectWebHandler.createFinish fs err obj file st).w.status = some 400 ∧
    (∀ f, file = some f → ∃ ce, (ObjectWebHandler.createFinish fs err obj file st).calls
        = st.calls ++ [.close f ce]) ∧
    (file = none → (ObjectWebHandler.createFinish fs err obj file st).calls = st.calls) := by
  unfold ObjectWebHandler.createFinish
  rw [if_pos he]
  cases file with
  | none =>
    exact ⟨respondWithError_status _ _ _ _ hs, fun f hf => absurd hf (by simp), fun _ => rfl⟩
  | some f =>
    refine ⟨respondWithError_status _ _ _ _ hs, fun g hg => ?_, fun hf => absurd hf (by simp)⟩
    cases hg
    exact ⟨_, rfl⟩

/-- C4, as stated, fails twice. A read error met while the content of the
`object` part is copied into the store is answered 500, not 400. And when two
`object` parts precede a failing `NextPart`, the entry created for the first
one is never closed: only the entry created last is. -/
theorem create_read_error_counterexample :
    (ObjectWebHandler.Create memFS
      (uploadRequest [(Part.object "a.txt" "hel").failing] .eof)
      St.start).1.w.status = some 500 ∧
    (ObjectWebHandler.Create memFS
      (uploadRequest [Part.object "a.txt" "hello", Part.object "b.txt" "world"]
        (.other "unexpected EOF"))
      St.start).1.calls
      = [.create "a.txt" (some { bytes := [1] }), .write { bytes := [1] } "hello" none,
         .create "b.txt" (some { bytes := [2] }), .write { bytes := [2] } "world" none,
         .close (GridFile.new { bytes := [2] } "b.txt") none] := by
  decide

/-- C4, amended: let the loop of `Create` have consumed the parts `pre` and go
on, with `file` the entry created most recently (if any). When the next
`NextPart` fails with an error other than `io.EOF`, or the next part is a
`filename`, `content_type` or `extra.bucket` field whose value cannot be read,
the response is 400 and that most recent entry, when there is one, is closed
as the last call to the store. When the next part is an `object` part whose
entry is created and written but whose content cannot be read to its end, the
response is 500 and the entry just created is closed as the last call. -/
theorem create_read_error {σ : Type} (fs : GridFS σ) (r : Request) (st : St σ)
    (pre post : List Part) (p : Part) (final : GoError) (obj : ObjectMeta)
    (file : Option GridFile) (st1 : St σ)
    (hs : st.w.status = none) (hlog : st.calls = [])
    (hct : stringsHasPrefix (r.Header.Get "Content-Type") "multipart/form-data" = true)
    (hpre : ObjectWebHandler.createLoop fs pre (ObjectWebHandler.createInit r) none
      (ObjectWebHandler.createEntry st) = .next obj file st1) :
    file = lastCreated st1.calls ∧
    (∀ e, e ≠ GoError.eof → r.multipartReader = .ok { parts := pre, final := e } →
      (ObjectWebHandler.Create fs r st).1.w.status = some 400 ∧
      (∀ f, file = some f →
        ∃ ce, (ObjectWebHandler.Create fs r st).1.calls = st1.calls ++ [.close f ce]) ∧
      (file = none → (ObjectWebHandler.Create fs r st).1.calls = st1.calls)) ∧
    (∀ e, (ObjectWebHandler.isField "filename" p = true ∨
        ObjectWebHandler.isField "content_type" p = true ∨
        ObjectWebHandler.isField "extra.bucket" p = true) →
      readResult p.readErr = some e →
      r.multipartReader = .ok { parts := pre ++ p :: post, final := final } →
      (ObjectWebHandler.Create fs r st).1.w.status = some 400 ∧
      (∀ f, file = some f →
        ∃ ce, (ObjectWebHandler.Create fs r st).1.calls = st1.calls ++ [.close f ce]) ∧
      (file = none → (ObjectWebHandler.Create fs r st).1.calls = st1.calls)) ∧
    (∀ e id, ObjectWebHandler.isObjectPart p = true →
      (fs.create p.fileName st1.store).1 = .ok id →
      (p.data ≠ "" → (fs.write id p.data (fs.create p.fileName st1.store).2).1 = none) →
      readResult p.readErr = some e →
      r.multipartReader = .ok { parts := pre ++ p :: post, final := final } →
      (ObjectWebHandler.Create fs r st).1.w.status = some 500 ∧
      ∃ ce, (ObjectWebHandler.Create fs r st).1.calls
        = st1.calls ++ [.create p.fileName (some id)]
          ++ (if p.data = "" then [] else [.write id p.data none])
          ++ [.close (GridFile.new id p.fileName) ce]) := by
  obtain ⟨_, hw, _, new, hcalls, _, _, hcase⟩ :=
    createLoop_next fs pre _ obj none file _ st1 hpre
  have hs1 : st1.w.status = none := by
    rw [hw]
    exact hs
  have hnew : st1.calls = new := by
    rw [hcalls]
    show st.calls ++ new = new
    rw [hlog, List.nil_append]
  refine ⟨?_, ?_, ?_, ?_⟩
  · rw [hnew]
    cases hl : lastObjectPart pre with
    | some q =>
      simp only [hl] at hcase
      exact hcase.2
    | none =>
      simp only [hl] at hcase
      rw [hcase.1, hcase.2.1]
      rfl
  · intro e he hbody
    rw [Create_of_multipart fs r st _ hct hbody]
    simp only [hpre, ObjectWebHandler.createTail]
    exact createFinish_error fs e obj file st1 he hs1
  · intro e hf hr hbody
    rw [Create_of_multipart fs r st _ hct hbody]
    simp only [createLoop_append, hpre, ObjectWebHandler.createLoop,
      createStep_field_error fs p obj file st1 e hf hr, ObjectWebHandler.createTail]
    exact createFinish_error fs e obj file st1 (readResult_ne_eof _ _ hr) hs1
  · intro e id hp hc hwr hr hbody
    rw [Create_of_multipart fs r st _ hct hbody]
    have hfld := fun n => isField_of_isObjectPart n p hp
    have hw1 : p.data ≠ "" → (fs.write (GridFile.new id p.fileName).id p.data
        (fs.create p.fileName st1.store).2).1 = none := hwr
    by_cases hd : p.data = ""
    · simp only [createLoop_append, hpre, ObjectWebHandler.createLoop,
        ObjectWebHandler.createStep, hfld, Bool.false_eq_true, if_false, hp, if_true,
        callStore, hc, ObjectWebHandler.copyToFile, hd, hr, ObjectWebHandler.createTail]
      refine ⟨respondWithError_status _ _ _ _ hs1,
        ⟨(fs.close (GridFile.new id p.fileName) (fs.create p.fileName st1.store).2).1, ?_⟩⟩
      simp [respondWithError, okId]
    · simp only [createLoop_append, hpre, ObjectWebHandler.createLoop,
        ObjectWebHandler.createStep, hfld, Bool.false_eq_true, if_false, hp, if_true,
        callStore, hc, ObjectWebHandler.copyToFile, hd, hr, ObjectWebHandler.createTail,
        hw1 hd]
      refine ⟨respondWithError_status _ _ _ _ hs1,
        ⟨(fs.close (GridFile.new id p.fileName)
          (fs.write id p.data (fs.create p.fileName st1.store).2).2).1, ?_⟩⟩
      simp [respondWithError, okId, GridFile.new]

theorem create_read_error_witness :
    (ObjectWebHandler.Create memFS
      (uploadRequest
        ([Part.object "a.txt" "hello"] ++ (Part.field "extra.bucket" "b").failing :: []) .eof)
      St.start).1.w.status = some 400 ∧
    ∃ ce, (ObjectWebHandler.Create memFS
      (uploadRequest
        ([Part.object "a.txt" "hello"] ++ (Part.field "extra.bucket" "b").failing :: []) .eof)
      St.start).1.calls
      = [.create "a.txt" (some { bytes := [1] }), .write { bytes := [1] } "hello" none]
        ++ [.close (GridFile.new { bytes := [1] } "a.txt") ce] :=
  have h := (create_read_error memFS
    (uploadRequest
      ([Part.object "a.txt" "hello"] ++ (Part.field "extra.bucket" "b").failing :: []) .eof)
    St.start [Part.object "a.txt" "hello"] [] (Part.field "extra.bucket" "b").failing
    .eof _ (some (GridFile.new { bytes := [1] } "a.txt")) _ rfl rfl (by decide) rfl).2.2.1
    (.other "unexpected EOF") (by decide) rfl rfl
  ⟨h.1, h.2.1 _ rfl⟩

/-! ## `Create`: the successful upload -/

theorem isField_exclusive (a b : String) (p : Part) (hab : a ≠ b)
    (ha : ObjectWebHandler.isField a p = true) : ObjectWebHandler.isField b p = false := by
  simp only [ObjectWebHandler.isField, Bool.and_eq_true, decide_eq_true_eq] at ha
  have : p.formName ≠ b := fun h => hab (ha.1.symm.trans h)
  simp [ObjectWebHandler.isField, this]

theorem lastFieldValue_append_singleton (name : String) (l : List Part) (a : Part)
    (d : String) :
    lastFieldValue name (l ++ [a]) d
      = if ObjectWebHandler.isField name a = true then a.data else lastFieldValue name l d := by
  unfold lastFieldValue
  by_cases hc : ObjectWebHandler.isField name a = true
  · simp [List.filter_append, hc]
  · simp [List.filter_append, hc]

theorem objStep_Filename (p : Part) (obj : ObjectMeta) :
    (objStep p obj).Filename
      = if ObjectWebHandler.isField "filename" p = true then p.data else obj.Filename := by
  unfold objStep
  by_cases h1 : ObjectWebHandler.isField "filename" p = true
  · simp [h1]
  · by_cases h2 : ObjectWebHandler.isField "content_type" p = true
    · simp [h1, h2]
    · by_cases h3 : ObjectWebHandler.isField "extra.bucket" p = true
      · simp [h1, h2, h3]
      · simp [h1, h2, h3]

theorem objStep_ContentType (p : Part) (obj : ObjectMeta) :
    (objStep p obj).ContentType
      = if ObjectWebHandler.isField "content_type" p = true then p.data
        else obj.ContentType := by
  unfold objStep
  by_cases h1 : ObjectWebHandler.isField "filename" p = true
  · simp [h1, isField_exclusive "filename" "content_type" p (by decide) h1]
  · by_cases h2 : ObjectWebHandler.isField "content_type" p = true
    · simp [h1, h2]
    · by_cases h3 : ObjectWebHandler.isField "extra.bucket" p = true
      · simp [h1, h2, h3]
      · simp [h1, h2, h3]

theorem objStep_Metadata (p : Part) (obj : ObjectMeta) :
    (objStep p obj).Metadata
      = if ObjectWebHandler.isField "extra.bucket" p = true then
          obj.Metadata.set "bucket" (.str p.data)
        else obj.Metadata := by
  unfold objStep
  by_cases h1 : ObjectWebHandler.isField "filename" p = true
  · simp [h1, isField_exclusive "filename" "extra.bucket" p (by decide) h1]
  · by_cases h2 : ObjectWebHandler.isField "content_type" p = true
    · simp [h1, h2, isField_exclusive "content_type" "extra.bucket" p (by decide) h2]
    · by_cases h3 : ObjectWebHandler.isField "extra.bucket" p = true
      · simp [h1, h2, h3]
      · simp [h1, h2, h3]

theorem foldl_objStep_Filename (l : List Part) (obj : ObjectMeta) :
    (l.foldl (fun o p => objStep p o) obj).Filename
      = lastFieldValue "filename" l obj.Filename := by
  induction l using List.reverseRecOn with
  | nil => rfl
  | append_singleton l a ih =>
    rw [List.foldl_append, lastFieldValue_append_singleton]
    simp only [List.foldl_cons, List.foldl_nil, objStep_Filename, ih]

theorem foldl_objStep_ContentType (l : List Part) (obj : ObjectMeta) :
    (l.foldl (fun o p => objStep p o) obj).ContentType
      = lastFieldValue "content_type" l obj.ContentType := by
  induction l using List.reverseRecOn with
  | nil => rfl
  | append_singleton l a ih =>
    rw [List.foldl_append, lastFieldValue_append_singleton]
    simp only [List.foldl_cons, List.foldl_nil, objStep_ContentType, ih]

theorem expectedMeta_append_singleton (cid : String) (l : List Part) (a : Part) :
    expectedMeta cid (l ++ [a])
      = if ObjectWebHandler.isField "extra.bucket" a = true then
          [("cid", .str cid), ("bucket", .str a.data)]
        else expectedMeta cid l := by
  unfold expectedMeta
  by_cases hc : ObjectWebHandler.isField "extra.bucket" a = true
  · simp [List.filter_append, hc]
  · simp [List.filter_append, hc]

theorem foldl_objStep_Metadata (l : List Part) (obj : ObjectMeta) (cid : String)
    (h : obj.Metadata = [("cid", .str cid)]) :
    (l.foldl (fun o p => objStep p o) obj).Metadata = expectedMeta cid l := by
  induction l using List.reverseRecOn with
  | nil => simp [expectedMeta, h]
  | append_singleton l a ih =>
    rw [List.foldl_append, expectedMeta_append_singleton]
    simp only [List.foldl_cons, List.foldl_nil, objStep_Metadata, ih]
    by_cases hc : ObjectWebHandler.isField "extra.bucket" a = true
    · simp only [hc, if_true]
      unfold expectedMeta
      cases (List.filter (ObjectWebHandler.isField "extra.bucket") l).getLast? <;>
        simp [GoMap.set, GoMap.delete]
    · simp [hc]


/-- The document fields `Create` closes the entry with. -/
theorem finalFile_eq (f0 : GridFile) (obj : ObjectMeta) (h0 : f0.contentType = "") :
    (if obj.ContentType ≠ "" then
        ((f0.SetName obj.Filename).SetMeta obj.Metadata).SetContentType obj.ContentType
      else (f0.SetName obj.Filename).SetMeta obj.Metadata)
      = finalFile f0.id obj := by
  by_cases hc : obj.ContentType = ""
  · simp [hc, GridFile.SetName, GridFile.SetMeta, h0, finalFile]
  · simp [hc, GridFile.SetName, GridFile.SetMeta, GridFile.SetContentType, finalFile]

/-- After a loop that ended on `io.EOF` with an entry in `file`: when no call
to the store fails, the entry is closed with the accumulated fields, read
back, and the response is 201. -/
theorem createFinish_ok {σ : Type} (fs : GridFS σ) (obj : ObjectMeta) (f0 : GridFile)
    (st : St σ) (h0 : f0.contentType = "") (hs : st.w.status = none)
    (hok : ∀ c ∈ (ObjectWebHandler.createFinish fs .eof obj (some f0) st).calls,
      c.failed = false) :
    (ObjectWebHandler.createFinish fs .eof obj (some f0) st).w.status = some 201 ∧
    (ObjectWebHandler.createFinish fs .eof obj (some f0) st).calls
      = st.calls ++ [.close (finalFile f0.id obj) none, .findId f0.id none] := by
  unfold ObjectWebHandler.createFinish at hok ⊢
  simp only [ne_eq, not_true_eq_false, if_false] at hok ⊢
  have hF := finalFile_eq f0 obj h0
  simp only [ne_eq] at hF
  rw [hF] at hok ⊢
  have hid : (finalFile f0.id obj).id = f0.id := rfl
  generalize finalFile f0.id obj = F at hok hid ⊢
  simp only [callStore, hid] at hok ⊢
  cases hcl : (fs.close F st.store).1 with
  | some e =>
    simp only [hcl] at hok
    have := hok (.close F (some e)) (by simp [respondWithError])
    simp [StoreCall.failed] at this
  | none =>
    simp only [hcl] at hok ⊢
    cases hfd : (fs.findId f0.id (fs.close F st.store).2).1 with
    | error e =>
      simp only [hfd] at hok
      have := hok (.findId f0.id (some e)) (by cases e <;> simp [respondWithError, errOf])
      simp [StoreCall.failed] at this
    | ok found =>
      simp only [hfd]
      refine ⟨?_, by simp [errOf]⟩
      simp [ResponseWriter.Write, ResponseWriter.WriteHeader, hs, StatusCreated]

theorem createStep_brk {σ : Type} (fs : GridFS σ) (p : Part) (obj obj1 : ObjectMeta)
    (file file1 : Option GridFile) (st st1 : St σ) (e : GoError)
    (h : ObjectWebHandler.createStep fs p obj file st = .brk e obj1 file1 st1) :
    readResult p.readErr = some e := by
  by_cases hp : ObjectWebHandler.isObjectPart p = true
  · have hf := fun n => isField_of_isObjectPart n p hp
    simp only [ObjectWebHandler.createStep, hf, Bool.false_eq_true, if_false, hp, if_true]
      at h
    split at h
    · exact absurd h (by simp)
    · split at h <;> exact absurd h (by simp)
  · have hp1 : ObjectWebHandler.isObjectPart p = false := by simpa using hp
    rcases createStep_of_not_object fs p obj file st hp1 with h1 | ⟨e1, _, hr, h1⟩
    · rw [h1] at h
      exact absurd h (by simp)
    · rw [h1] at h
      simp only [ObjectWebHandler.LoopExit.brk.injEq] at h
      rw [← h.1]
      exact hr

theorem createLoop_brk {σ : Type} (fs : GridFS σ) (parts : List Part) (obj obj1 : ObjectMeta)
    (file file1 : Option GridFile) (st st1 : St σ) (e : GoError)
    (h : ObjectWebHandler.createLoop fs parts obj file st = .brk e obj1 file1 st1) :
    ∃ p ∈ parts, readResult p.readErr = some e := by
  induction parts generalizing obj file st with
  | nil => simp [ObjectWebHandler.createLoop] at h
  | cons p rest ih =>
    simp only [ObjectWebHandler.createLoop] at h
    cases hstep : ObjectWebHandler.createStep fs p obj file st with
    | next o f s =>
      simp only [hstep] at h
      obtain ⟨q, hq, hr⟩ := ih o f s h
      exact ⟨q, List.mem_cons_of_mem _ hq, hr⟩
    | brk e1 o f s =>
      simp only [hstep, ObjectWebHandler.LoopExit.brk.injEq] at h
      refine ⟨p, List.mem_cons_self _ _, ?_⟩
      rw [← h.1]
      exact createStep_brk fs p obj o file f st s e1 hstep
    | ret s => simp [hstep] at h

/-- When a pass through the loop makes `Create` return although the part was
read to its end, a call to the store has failed. -/
theorem createStep_ret {σ : Type} (fs : GridFS σ) (p : Part) (obj : ObjectMeta)
    (file : Option GridFile) (st st1 : St σ)
    (h : ObjectWebHandler.createStep fs p obj file st = .ret st1)
    (hr : readResult p.readErr = none) : ∃ c ∈ st1.calls, c.failed = true := by
  by_cases hp : ObjectWebHandler.isObjectPart p = true
  · have hf := fun n => isField_of_isObjectPart n p hp
    simp only [ObjectWebHandler.createStep, hf, Bool.false_eq_true, if_false, hp, if_true]
      at h
    cases hc : (fs.create p.fileName st.store).1 with
    | error e =>
      simp only [callStore, hc, ObjectWebHandler.LoopExit.ret.injEq] at h
      rw [← h]
      exact ⟨.create p.fileName none, by simp [respondWithError, okId], rfl⟩
    | ok id =>
      simp only [callStore, hc] at h
      generalize hst2 : ({ st with
        store := (fs.create p.fileName st.store).2,
        calls := st.calls ++ [StoreCall.create p.fileName (okId (Except.ok id))] } : St σ)
        = st2 at h
      obtain ⟨_, _, new, hcalls, _, _, _, hfail⟩ := copyToFile_spec fs
        (GridFile.new id p.fileName) p st2
      cases hcp : (ObjectWebHandler.copyToFile fs (GridFile.new id p.fileName) p st2).1 with
      | none => simp [hcp] at h
      | some e =>
        simp only [hcp, ObjectWebHandler.LoopExit.ret.injEq] at h
        obtain ⟨c, hc1, hc2⟩ := hfail e hcp hr
        refine ⟨c, ?_, hc2⟩
        rw [← h]
        simp [respondWithError, hcalls, hc1]
  · have hp1 : ObjectWebHandler.isObjectPart p = false := by simpa using hp
    rcases createStep_of_not_object fs p obj file st hp1 with h1 | ⟨e1, _, _, h1⟩
    · rw [h1] at h
      exact absurd h (by simp)
    · rw [h1] at h
      exact absurd h (by simp)

theorem createLoop_ret {σ : Type} (fs : GridFS σ) (parts : List Part) (obj : ObjectMeta)
    (file : Option GridFile) (st st1 : St σ)
    (h : ObjectWebHandler.createLoop fs parts obj file st = .ret st1)
    (hwf : ∀ p ∈ parts, readResult p.readErr = none) : ∃ c ∈ st1.calls, c.failed = true := by
  induction parts generalizing obj file st with
  | nil => simp [ObjectWebHandler.createLoop] at h
  | cons p rest ih =>
    simp only [ObjectWebHandler.createLoop] at h
    cases hstep : ObjectWebHandler.createStep fs p obj file st with
    | next o f s =>
      simp only [hstep] at h
      exact ih o f s h (fun q hq => hwf q (List.mem_cons_of_mem _ hq))
    | brk e1 o f s => simp [hstep] at h
    | ret s =>
      simp only [hstep, ObjectWebHandler.LoopExit.ret.injEq] at h
      rw [← h]
      exact createStep_ret fs p obj file st s hstep (hwf p (List.mem_cons_self _ _))

/-- C5, as stated, fails on the correlation identifier: `Create` stores the key
`cid` whether or not the request carries the header `X-Correlation-Id`. An
upload without the header, all store calls succeeding, is answered 201 and
its entry is closed with metadata `cid` = the empty string. -/
theorem create_cid_counterexample :
    ¬ ("X-Correlation-Id" ∈ (uploadRequestNoCid [Part.object "a.txt" "hello"] .eof).Header.map
        Prod.fst) ∧
    (ObjectWebHandler.Create memFS (uploadRequestNoCid [Part.object "a.txt" "hello"] .eof)
      St.start).1.w.status = some 201 ∧
    closedFiles (ObjectWebHandler.Create memFS
      (uploadRequestNoCid [Part.object "a.txt" "hello"] .eof) St.start).1.calls
      = [{ id := { bytes := [1] }, name := "", contentType := "",
           meta := [("cid", .str "")] }] := by
  decide

theorem expectedMeta_get_cid (cid : String) (parts : List Part) :
    (expectedMeta cid parts).get "cid" = some (.str cid) := by
  simp [expectedMeta, GoMap.get]

theorem HttpHeader.Get_of_absent (h : HttpHeader) (key : String)
    (habs : ∀ kv ∈ h, kv.1 ≠ key) : HttpHeader.Get h key = "" := by
  induction h with
  | nil => rfl
  | cons kv rest ih =>
    obtain ⟨k, vs⟩ := kv
    have hk : ¬ k = key := habs (k, vs) (List.mem_cons_self _ _)
    rw [HttpHeader.Get, if_neg hk]
    exact ih (fun kv hkv => habs kv (List.mem_cons_of_mem _ hkv))

/-- C5, amended: a multipart request to `Create` that ends cleanly, all of whose
parts read to their end and whose last content-bearing part is `q`, when no
call to the store fails: the response is 201; exactly one entry is closed, the
one created last (for `q`), with name the value of the last `filename` field,
content type the value of the last `content_type` field (both empty when there
is no such field) and metadata `bucket` = the value of the last `extra.bucket`
field (no such key when there is no such field) and `cid` = the value of the
`X-Correlation-Id` header. The key `cid` is always stored: when the header is
absent its value is the empty string. The fields count wherever they stand
relative to the content-bearing parts. -/
theorem create_success {σ : Type} (fs : GridFS σ) (r : Request) (st : St σ)
    (body : MultipartStream) (q : Part)
    (hs : st.w.status = none) (hlog : st.calls = [])
    (hct : stringsHasPrefix (r.Header.Get "Content-Type") "multipart/form-data" = true)
    (hbody : r.multipartReader = .ok body) (hend : body.final = .eof)
    (hwf : ∀ p ∈ body.parts, readResult p.readErr = none)
    (hobj : lastObjectPart body.parts = some q)
    (hok : ∀ c ∈ (ObjectWebHandler.Create fs r st).1.calls, c.failed = false) :
    (ObjectWebHandler.Create fs r st).1.w.status = some 201 ∧
    (∃ id, lastCreated (ObjectWebHandler.Create fs r st).1.calls
        = some (GridFile.new id q.fileName) ∧
      closedFiles (ObjectWebHandler.Create fs r st).1.calls
        = [{ id := id, name := lastFieldValue "filename" body.parts "",
             contentType := lastFieldValue "content_type" body.parts "",
             meta := expectedMeta (r.Header.Get "X-Correlation-Id") body.parts }]) ∧
    (expectedMeta (r.Header.Get "X-Correlation-Id") body.parts).get "cid"
      = some (.str (r.Header.Get "X-Correlation-Id")) ∧
    ((∀ kv ∈ r.Header, kv.1 ≠ "X-Correlation-Id") →
      (expectedMeta (r.Header.Get "X-Correlation-Id") body.parts).get "cid"
        = some (.str "")) := by
  rw [← and_assoc]
  refine ⟨?_, expectedMeta_get_cid _ _, fun habs => ?_⟩
  swap
  · rw [HttpHeader.Get_of_absent r.Header "X-Correlation-Id" habs]
    exact expectedMeta_get_cid _ _
  rw [Create_of_multipart fs r st body hct hbody] at hok ⊢
  cases hL : ObjectWebHandler.createLoop fs body.parts (ObjectWebHandler.createInit r) none
      (ObjectWebHandler.createEntry st) with
  | next obj file st1 =>
    obtain ⟨ho, hw, _, new, hcalls, hcl, _, hcase⟩ :=
      createLoop_next fs body.parts _ obj none file _ st1 hL
    simp only [hobj] at hcase
    obtain ⟨⟨id, hid⟩, hf⟩ := hcase
    rw [hid] at hf
    subst hf
    have hs1 : st1.w.status = none := by
      rw [hw]
      exact hs
    have hnew : st1.calls = new := by
      rw [hcalls]
      show st.calls ++ new = new
      rw [hlog, List.nil_append]
    simp only [hL, ObjectWebHandler.createTail, hend] at hok ⊢
    obtain ⟨hst, hc2⟩ := createFinish_ok fs obj (GridFile.new id q.fileName) st1 rfl hs1 hok
    refine ⟨hst, id, ?_, ?_⟩
    · rw [hc2, hnew, lastCreated_append, hid]
      rfl
    · rw [hc2, hnew, closedFiles_append, hcl, ho]
      simp only [closedFiles, finalFile, GridFile.new, List.nil_append,
        foldl_objStep_Filename, foldl_objStep_ContentType,
        foldl_objStep_Metadata body.parts (ObjectWebHandler.createInit r)
          (r.Header.Get "X-Correlation-Id") rfl]
      rfl
  | brk e obj file st1 =>
    obtain ⟨p, hp, hr⟩ := createLoop_brk fs body.parts _ obj none file _ st1 e hL
    rw [hwf p hp] at hr
    exact absurd hr (by simp)
  | ret st1 =>
    obtain ⟨c, hc, hfail⟩ := createLoop_ret fs body.parts _ none _ st1 hL hwf
    simp only [hL, ObjectWebHandler.createTail] at hok
    rw [hok c hc] at hfail
    exact absurd hfail (by simp)

theorem create_success_witness :
    (ObjectWebHandler.Create memFS
      (uploadRequest
        [Part.field "content_type" "text/plain", Part.object "x.bin" "hello",
         Part.field "filename" "a.txt", Part.field "extra.bucket" "b1"] .eof)
      St.start).1.w.status = some 201 ∧
    ∃ id, lastCreated (ObjectWebHandler.Create memFS
      (uploadRequest
        [Part.field "content_type" "text/plain", Part.object "x.bin" "hello",
         Part.field "filename" "a.txt", Part.field "extra.bucket" "b1"] .eof)
      St.start).1.calls = some (GridFile.new id "x.bin") ∧
      closedFiles (ObjectWebHandler.Create memFS
      (uploadRequest
        [Part.field "content_type" "text/plain", Part.object "x.bin" "hello",
         Part.field "filename" "a.txt", Part.field "extra.bucket" "b1"] .eof)
      St.start).1.calls
        = [{ id := id, name := "a.txt", contentType := "text/plain",
             meta := [("cid", .str "req-42"), ("bucket", .str "b1")] }] :=
  have h := create_success memFS
    (uploadRequest
      [Part.field "content_type" "text/plain", Part.object "x.bin" "hello",
       Part.field "filename" "a.txt", Part.field "extra.bucket" "b1"] .eof)
    St.start _ (Part.object "x.bin" "hello") rfl rfl (by decide) rfl rfl (by decide)
    (by decide) (by decide)
  ⟨h.1, h.2.1⟩

/-! ## `Retreive` -/

theorem GoMap.get_delete_self (m : GoMap) (k : String) : (m.delete k).get k = none := by
  induction m with
  | nil => rfl
  | cons kv rest ih =>
    obtain ⟨k1, v⟩ := kv
    by_cases h : k1 = k
    · simp [GoMap.delete, h, ih]
    · simp [GoMap.delete, GoMap.get, h, ih]

theorem GoMap.get_delete_ne (m : GoMap) (k k2 : String) (hk : k2 ≠ k) :
    (m.delete k).get k2 = m.get k2 := by
  induction m with
  | nil => rfl
  | cons kv rest ih =>
    obtain ⟨k1, v⟩ := kv
    by_cases h : k1 = k
    · have h2 : ¬ k1 = k2 := fun e => hk (e.symm.trans h)
      rw [GoMap.delete, if_pos h, ih, GoMap.get, if_neg h2]
    · by_cases h2 : k1 = k2
      · rw [GoMap.delete, if_neg h, GoMap.get, if_pos h2, GoMap.get, if_pos h2]
      · rw [GoMap.delete, if_neg h, GoMap.get, if_neg h2, ih, GoMap.get, if_neg h2]

theorem strippedRecord_spec (rc : ObjectMeta) :
    strippedRecord rc = { rc with Metadata := (strippedRecord rc).Metadata } ∧
    (strippedRecord rc).Metadata.get "bucket" = none ∧
    ∀ k, k ≠ "bucket" → (strippedRecord rc).Metadata.get k = rc.Metadata.get k := by
  unfold strippedRecord
  cases h : rc.Metadata.get "bucket" with
  | none => exact ⟨rfl, h, fun _ _ => rfl⟩
  | some v => exact ⟨rfl, GoMap.get_delete_self _ _, fun k hk => GoMap.get_delete_ne _ _ _ hk⟩

theorem retreiveLoop_eq (name : String) (l records : List ObjectMeta) :
    BucketWebHandler.retreiveLoop { Name := name, Objects := some l } records
      = { Name := name, Objects := some (l ++ records.map strippedRecord) } := by
  induction records generalizing l with
  | nil => simp [BucketWebHandler.retreiveLoop]
  | cons rc rest ih =>
    have hstep : BucketWebHandler.retreiveStep { Name := name, Objects := some l } rc
        = { Name := name, Objects := some (l ++ [strippedRecord rc]) } := by
      unfold BucketWebHandler.retreiveStep strippedRecord sliceAppend
      cases rc.Metadata.get "bucket" <;> rfl
    rw [BucketWebHandler.retreiveLoop, hstep, ih]
    simp

/-- C6: for a non-empty bucket name and records delivered by an iteration that
closes without error, `Retreive` writes, with status 200, the JSON of a
`BucketMeta` with the requested name and an objects list of the same length
and order as the records, each object being its record with the key `bucket`
removed from the metadata and every other key unchanged; with no records the
list is the empty JSON array, not `null`. -/
theorem retreive_strips_bucket {σ : Type} (fs : GridFS σ) (r : Request) (st : St σ)
    (ps : Params) (name : String) (records : List ObjectMeta)
    (hs : st.w.status = none) (hctx : st.ctx = some ps) (hname : ps.ByName "name" = name)
    (hne : name ≠ "") (hiter : (fs.iterAll name st.store).1 = (records, none)) :
    (BucketWebHandler.Retreive fs r st).1.w.status = some 200 ∧
    (BucketWebHandler.Retreive fs r st).2 = .returned ∧
    (∃ objs : List ObjectMeta,
      (BucketWebHandler.Retreive fs r st).1.w.body
        = st.w.body ++ [.json (BucketMeta.toJson { Name := name, Objects := some objs })] ∧
      objs.length = records.length ∧
      ∀ (i : Nat) (rc : ObjectMeta), records[i]? = some rc →
        ∃ o : ObjectMeta, objs[i]? = some o ∧ o = { rc with Metadata := o.Metadata } ∧
          o.Metadata.get "bucket" = none ∧
          ∀ k, k ≠ "bucket" → o.Metadata.get k = rc.Metadata.get k) ∧
    (records = [] →
      (BucketWebHandler.Retreive fs r st).1.w.body
        = st.w.body ++ [.json (.obj [("name", .str name), ("objects", .arr [])])]) := by
  have hloop : BucketWebHandler.retreiveLoop { Name := name, Objects := some [] } records
      = { Name := name, Objects := some (records.map strippedRecord) } := by
    rw [retreiveLoop_eq]
    rfl
  have hrun : BucketWebHandler.Retreive fs r st
      = ({ (callStore st (fs.iterAll name)
              (fun res => StoreCall.iterAll name res.2)).2 with
            w := st.w.Write (.json (BucketMeta.toJson
              { Name := name, Objects := some (records.map strippedRecord) })) },
          Exit.returned) := by
    simp only [BucketWebHandler.Retreive, getParams, hctx, hname, hne, if_false, callStore,
      hiter, hloop]
  rw [hrun]
  refine ⟨?_, rfl, ⟨records.map strippedRecord, ?_, by simp, ?_⟩, ?_⟩
  · simp [ResponseWriter.Write, ResponseWriter.WriteHeader, hs]
  · simp [ResponseWriter.Write, ResponseWriter.WriteHeader, hs]
  · intro i rc hi
    refine ⟨strippedRecord rc, ?_, strippedRecord_spec rc⟩
    rw [List.getElem?_map, hi]
    rfl
  · intro hr
    subst hr
    simp [ResponseWriter.Write, ResponseWriter.WriteHeader, hs, BucketMeta.toJson]

theorem retreive_strips_bucket_witness :
    (BucketWebHandler.Retreive memFS (plainRequest "GET" "/buckets/b1" [])
      { St.withParams [("name", "b1")] with store := MemStore.sample }).1.w.status = some 200 ∧
    (BucketWebHandler.Retreive memFS (plainRequest "GET" "/buckets/b1" [])
      { St.withParams [("name", "b1")] with store := MemStore.sample }).1.w.body
      = [.json (.obj [("name", .str "b1"),
          ("objects", .arr [.obj [("id", .str "01"), ("filename", .str "a.txt"),
            ("content_type", .str "text/plain"), ("size", .num 5),
            ("chunk_size", .num 261120), ("md5", .str ""), ("created_on", .str ""),
            ("extra", .obj [("cid", .str "req-42")])]])])] :=
  ⟨(retreive_strips_bucket memFS (plainRequest "GET" "/buckets/b1" [])
      { St.withParams [("name", "b1")] with store := MemStore.sample }
      [("name", "b1")] "b1" _ rfl rfl rfl (by decide) rfl).1, rfl⟩

/-! ## Path parameters -/

/-- C7, as stated, fails: the stub handlers never look at the path parameter.
`BucketWebHandler.Delete` with no `name` in the parameter set answers 501, not
400. -/
theorem path_parameter_counterexample :
    Params.ByName [] "name" = "" ∧
    (BucketWebHandler.Delete memFS (plainRequest "DELETE" "/buckets/" [])
      (St.withParams [])).1.w.status = some 501 := by
  decide

/-- C7, amended: when the path parameter is empty or missing from the
parameter set, `BucketWebHandler.CheckExists` and `Retreive` (on `name`) and
`ObjectWebHandler.CheckExists`, `Download` and `About` (on `id`) answer 400
without any call to the store; the stubs `BucketWebHandler.Delete`,
`ObjectWebHandler.Update` and `ObjectWebHandler.Delete` answer 501 without any
call to the store, whatever the parameters. -/
theorem path_parameter_required {σ : Type} (fs : GridFS σ) (r : Request) (st : St σ)
    (ps : Params) (hs : st.w.status = none) (hctx : st.ctx = some ps) :
    (ps.ByName "name" = "" →
      answersWithoutStore st 400 (BucketWebHandler.CheckExists fs r st) ∧
      answersWithoutStore st 400 (BucketWebHandler.Retreive fs r st)) ∧
    (ps.ByName "id" = "" →
      answersWithoutStore st 400 (ObjectWebHandler.CheckExists fs r st) ∧
      answersWithoutStore st 400 (ObjectWebHandler.Download fs r st) ∧
      answersWithoutStore st 400 (ObjectWebHandler.About fs r st)) ∧
    answersWithoutStore st 501 (BucketWebHandler.Delete fs r st) ∧
    answersWithoutStore st 501 (ObjectWebHandler.Update fs r st) ∧
    answersWithoutStore st 501 (ObjectWebHandler.Delete fs r st) := by
  have hidx : IsObjectIdHex "" = false := by decide
  refine ⟨fun hn => ⟨?_, ?_⟩, fun hi => ⟨?_, ?_, ?_⟩, ?_, ?_, ?_⟩
  · simp only [BucketWebHandler.CheckExists, getParams, hctx, hn, if_true]
    exact ⟨respondWithError_status _ _ _ _ hs, rfl, rfl, rfl⟩
  · simp only [BucketWebHandler.Retreive, getParams, hctx, hn, if_true]
    exact ⟨respondWithError_status _ _ _ _ hs, rfl, rfl, rfl⟩
  · simp only [ObjectWebHandler.CheckExists, getParams, hctx, hi, hidx, Bool.false_eq_true,
      not_false_eq_true, if_true]
    exact ⟨respondWithError_status _ _ _ _ hs, rfl, rfl, rfl⟩
  · simp only [ObjectWebHandler.Download, getParams, hctx, hi, hidx, Bool.false_eq_true,
      not_false_eq_true, if_true]
    exact ⟨respondWithError_status _ _ _ _ hs, rfl, rfl, rfl⟩
  · simp only [ObjectWebHandler.About, getParams, hctx, hi, hidx, Bool.false_eq_true,
      not_false_eq_true, if_true]
    exact ⟨respondWithError_status _ _ _ _ hs, rfl, rfl, rfl⟩
  · exact ⟨respondWithError_status _ _ _ _ hs, rfl, rfl, rfl⟩
  · exact ⟨respondWithError_status _ _ _ _ hs, rfl, rfl, rfl⟩
  · exact ⟨respondWithError_status _ _ _ _ hs, rfl, rfl, rfl⟩

theorem path_parameter_required_witness :
    answersWithoutStore (St.withParams [("name", "")]) 400
      (BucketWebHandler.Retreive memFS (plainRequest "GET" "/buckets/" [])
        (St.withParams [("name", "")])) ∧
    answersWithoutStore (St.withParams [("name", "")]) 400
      (ObjectWebHandler.Download memFS (plainRequest "GET" "/objects/" [])
        (St.withParams [("name", "")])) :=
  ⟨((path_parameter_required memFS (plainRequest "GET" "/buckets/" [])
      (St.withParams [("name", "")]) [("name", "")] rfl rfl).1 rfl).2,
   ((path_parameter_required memFS (plainRequest "GET" "/objects/" [])
      (St.withParams [("name", "")]) [("name", "")] rfl rfl).2.1 rfl).2.1⟩

/-! ## `Download` of an absent object -/

/-- C8, as stated, fails: for a well-formed identifier the store does not know,
`Download` answers 404 and writes the Error Envelope to the response body. -/
theorem download_absent_counterexample :
    IsObjectIdHex "0123456789abcdef01234567" = true ∧
    (memFS.openId (ObjectIdHex "0123456789abcdef01234567") MemStore.empty).1
      = .error .errNotFound ∧
    (ObjectWebHandler.Download memFS
      (plainRequest "GET" "/objects/0123456789abcdef01234567" [])
      (St.withParams [("id", "0123456789abcdef01234567")])).1.w.body
      = [.json (.obj [("error", .obj [("title", .str "Object does not exist"),
          ("message", .str "not found")])])] :=
  ⟨by decide, rfl, rfl⟩

/-- C8, amended: for a syntactically valid identifier that the store reports
as absent, `Download` answers 404, writes exactly the Error Envelope
"Object does not exist" to the body and no object content, and its only call
to the store is the failed `OpenId`. -/
theorem download_absent {σ : Type} (fs : GridFS σ) (r : Request) (st : St σ) (ps : Params)
    (hs : st.w.status = none) (hctx : st.ctx = some ps)
    (hid : IsObjectIdHex (ps.ByName "id") = true)
    (habs : (fs.openId (ObjectIdHex (ps.ByName "id")) st.store).1 = .error .errNotFound) :
    (ObjectWebHandler.Download fs r st).1.w.status = some 404 ∧
    (ObjectWebHandler.Download fs r st).1.w.body
      = st.w.body ++ [.json (errorEnvelope
          { Title := "Object does not exist", Message := "not found", Details := [] })] ∧
    (ObjectWebHandler.Download fs r st).1.calls
      = st.calls ++ [.openId (ObjectIdHex (ps.ByName "id")) (some .errNotFound)] ∧
    (ObjectWebHandler.Download fs r st).2 = .returned := by
  simp only [ObjectWebHandler.Download, getParams, hctx, hid, not_true_eq_false, if_false,
    callStore, habs]
  refine ⟨respondWithError_status _ _ _ _ hs, ?_, ?_, trivial⟩
  · rw [respondWithError_body]
    rfl
  · simp [respondWithError, errOf]

theorem download_absent_witness :
    (ObjectWebHandler.Download memFS
      (plainRequest "GET" "/objects/0123456789abcdef01234567" [])
      (St.withParams [("id", "0123456789abcdef01234567")])).1.w.status = some 404 :=
  (download_absent memFS (plainRequest "GET" "/objects/0123456789abcdef01234567" [])
    (St.withParams [("id", "0123456789abcdef01234567")])
    [("id", "0123456789abcdef01234567")] rfl rfl (by decide) rfl).1

/-! ## The route `PUT /objects/:id` -/

theorem chain_unfold_json {σ : Type} (h : Handler σ) :
    chainThen jsonChain h
      = ClearHandler (LoggingHandler (RecoverHandler (jsonTypeHandler
          (InfoHeadersHandler (JSONRenderingHandler h))))) := rfl

/-- C9, as stated, fails: the JSON pipeline checks the content type of a PUT
before `Update` runs, so a PUT without `Content-Type: application/json` is
answered 415, not 501. -/
theorem put_object_counterexample :
    ((wrapHandler (chainThen jsonChain (ObjectWebHandler.Update memFS)))
      [("id", "0123456789abcdef01234567")]
      (plainRequest "PUT" "/objects/0123456789abcdef01234567" [("Content-Type", ["text/plain"])])
      St.start).1.w.status = some 415 := by
  decide

/-- C9, amended: the handle registered for `PUT /objects/:id` answers a PUT
request with 501 when its Content-Type value truncated at the first `;` is
`application/json`, and with 415 otherwise; in both cases it returns normally
and makes no call to the store. -/
theorem put_object_route {σ : Type} (fs : GridFS σ) (h : Params → Handler σ)
    (hroute : findRoute (routes fs) "PUT" "/objects/:id" = some h)
    (ps : Params) (r : Request) (st : St σ) (hm : r.Method = "PUT")
    (hs : st.w.status = none) :
    (truncateAtSemicolon (r.Header.Get "Content-Type") = "application/json" →
      (h ps r st).1.w.status = some 501) ∧
    (truncateAtSemicolon (r.Header.Get "Content-Type") ≠ "application/json" →
      (h ps r st).1.w.status = some 415) ∧
    (h ps r st).1.calls = st.calls ∧ (h ps r st).1.store = st.store ∧
    (h ps r st).2 = .returned := by
  have hh : h = wrapHandler (chainThen jsonChain (ObjectWebHandler.Update fs)) := by
    simp [findRoute, routes] at hroute
    exact hroute.symm
  subst hh
  have hany : anyContentType r.Header ["application/json"] = true
      ↔ truncateAtSemicolon (r.Header.Get "Content-Type") = "application/json" := by
    rw [anyContentType_iff]
    simp
  by_cases hc : truncateAtSemicolon (r.Header.Get "Content-Type") = "application/json"
  · have ha := hany.2 hc
    simp only [wrapHandler, chain_unfold_json, ClearHandler, LoggingHandler, RecoverHandler,
      jsonTypeHandler, NewContentTypeHandler, hm, ha, InfoHeadersHandler,
      JSONRenderingHandler, ObjectWebHandler.Update]
    simp only [true_or, not_true_eq_false, if_false, if_true]
    refine ⟨fun _ => ?_, fun hne => absurd hc hne, by trivial, by trivial, by trivial⟩
    exact respondWithError_status _ _ _ _ hs
  · have ha : ¬ anyContentType r.Header ["application/json"] = true := fun e => hc (hany.1 e)
    simp only [wrapHandler, chain_unfold_json, ClearHandler, LoggingHandler, RecoverHandler,
      jsonTypeHandler, NewContentTypeHandler, hm, ha, InfoHeadersHandler,
      JSONRenderingHandler, ObjectWebHandler.Update]
    simp only [true_or, not_true_eq_false, if_false, if_true]
    refine ⟨fun he => absurd he hc, fun _ => ?_, by trivial, by trivial, by trivial⟩
    exact httpError_status_of_none _ _ _ hs

theorem put_object_route_witness :
    ((wrapHandler (chainThen jsonChain (ObjectWebHandler.Update memFS)))
      [("id", "0123456789abcdef01234567")]
      (plainRequest "PUT" "/objects/0123456789abcdef01234567"
        [("Content-Type", ["application/json; charset=utf-8"])])
      St.start).1.w.status = some 501 :=
  (put_object_route memFS _ rfl [("id", "0123456789abcdef01234567")]
    (plainRequest "PUT" "/objects/0123456789abcdef01234567"
      [("Content-Type", ["application/json; charset=utf-8"])])
    St.start rfl rfl).1 (by decide)

/-! ## `RecoverHandler` -/

/-- C10, as stated, fails: when the inner handler has committed a status before
it panics, the `WriteHeader(500)` of the recovery is superfluous and the
response keeps the committed status. -/
theorem recover_counterexample :
    (RecoverHandler
      (fun _ st => ({ st with w := st.w.WriteHeader 200 }, Exit.panicked "boom"))
      (plainRequest "GET" "/objects/0123456789abcdef01234567" [])
      St.start).1.w.status = some 200 := by
  decide

/-- C10, amended: when the inner handler panics, the handler wrapped by
`RecoverHandler` returns normally and appends the text of status 500 to the
body; the response status is 500 when the inner handler had committed no
status before the fault, and stays the committed one otherwise. -/
theorem recover_handler {σ : Type} (next : Handler σ) (r : Request) (st st1 : St σ)
    (v : String) (hp : next r st = (st1, .panicked v)) :
    (RecoverHandler next r st).2 = .returned ∧
    (st1.w.status = none → (RecoverHandler next r st).1.w.status = some 500) ∧
    (∀ c, st1.w.status = some c → (RecoverHandler next r st).1.w.status = some c) ∧
    (RecoverHandler next r st).1.w.body = st1.w.body ++ [.text "Internal Server Error\n"] ∧
    (RecoverHandler next r st).1.calls = st1.calls := by
  simp only [RecoverHandler, hp]
  refine ⟨by trivial, fun hs => httpError_status_of_none _ _ _ hs, fun c hc => ?_, ?_,
    by trivial⟩
  · simp [httpError, ResponseWriter.Write, ResponseWriter.WriteHeader,
      ResponseWriter.setHeader, hc]
  · cases hst : st1.w.status <;>
      simp [httpError, ResponseWriter.Write, ResponseWriter.WriteHeader,
        ResponseWriter.setHeader, hst, httpStatusText]

theorem recover_handler_witness :
    (RecoverHandler (fun _ st => (st, Exit.panicked "boom"))
      (plainRequest "GET" "/objects/0123456789abcdef01234567" [])
      St.start).1.w.status = some 500 :=
  (recover_handler (fun _ st => (st, Exit.panicked "boom"))
    (plainRequest "GET" "/objects/0123456789abcdef01234567" []) St.start St.start "boom"
    rfl).2.1 rfl

/-! ## Response bodies of the registered routes -/

theorem respond_fresh {σ : Type} (st : St σ) (code : Nat) (title : String)
    (err : Option GoError) (hs : st.w.status = none) (hb : st.w.body = []) :
    writes (respondWithError st code title err, Exit.returned) code
      [envelopeChunk title ((err.map GoError.Error).getD "")] := by
  refine ⟨rfl, respondWithError_status _ _ _ _ hs, ?_⟩
  show (respondWithError st code title err).w.body = _
  rw [respondWithError_body, hb]
  rfl

theorem httpError_body_fresh (w : ResponseWriter) (msg : String) (code : Nat)
    (hs : w.status = none) (hb : w.body = []) :
    (httpError w msg code).body = [.text (msg ++ "\n")] := by
  simp [httpError, ResponseWriter.Write, ResponseWriter.WriteHeader,
    ResponseWriter.setHeader, hs, hb]

theorem chain_unfold_default {σ : Type} (h : Handler σ) :
    chainThen defaultChain h
      = ClearHandler (LoggingHandler (RecoverHandler (InfoHeadersHandler h))) := rfl

/-- The recovery around a handler that returns leaves its result alone. -/
theorem recover_of_returned {σ : Type} (out : St σ × Exit) :
    out.2 = .returned →
    (match out with
      | (st1, .returned) => (st1, Exit.returned)
      | (st1, .panicked _) =>
        ({ st1 with w := httpError st1.w (httpStatusText 500) 500 }, Exit.returned))
      = out := by
  obtain ⟨s1, ex⟩ := out
  intro h1
  simp only [] at h1
  subst h1
  rfl

/-- The default pipeline around a handler that returns. -/
theorem defaultChain_run {σ : Type} (h : Handler σ) (ps : Params) (r : Request) (st : St σ)
    (hret : (h r (defaultEntry ps st)).2 = .returned) :
    wrapHandler (chainThen defaultChain h) ps r st
      = ({ (h r (defaultEntry ps st)).1 with ctx := none }, Exit.returned) := by
  simp only [wrapHandler, chain_unfold_default, ClearHandler, LoggingHandler, RecoverHandler,
    InfoHeadersHandler, defaultEntry] at hret ⊢
  rw [recover_of_returned _ hret, hret]

/-- The JSON pipeline around a handler that returns, for a request that passes
the content-type negotiation. -/
theorem jsonChain_run {σ : Type} (h : Handler σ) (ps : Params) (r : Request) (st : St σ)
    (hgate : ¬ (r.Method = "PUT" ∨ r.Method = "POST" ∨ r.Method = "PATCH")
      ∨ anyContentType r.Header ["application/json"] = true)
    (hret : (h r (jsonEntry ps st)).2 = .returned) :
    wrapHandler (chainThen jsonChain h) ps r st
      = ({ (h r (jsonEntry ps st)).1 with ctx := none }, Exit.returned) := by
  have hnext : NewContentTypeHandler ["application/json"]
      (InfoHeadersHandler (JSONRenderingHandler h)) r { st with ctx := some ps }
      = h r (jsonEntry ps st) := by
    rcases hgate with hm | ha
    · simp only [NewContentTypeHandler, hm, not_false_eq_true, if_true, InfoHeadersHandler,
        JSONRenderingHandler, jsonEntry]
    · by_cases hm : ¬ (r.Method = "PUT" ∨ r.Method = "POST" ∨ r.Method = "PATCH")
      · simp only [NewContentTypeHandler, hm, not_false_eq_true, if_true,
          InfoHeadersHandler, JSONRenderingHandler, jsonEntry]
      · simp only [NewContentTypeHandler, hm, if_false, ha, if_true, InfoHeadersHandler,
          JSONRenderingHandler, jsonEntry]
  simp only [wrapHandler, chain_unfold_json, ClearHandler, LoggingHandler, RecoverHandler,
    jsonTypeHandler, hnext]
  rw [recover_of_returned (h r (jsonEntry ps st)) hret, hret]

/-- The JSON pipeline for a request that the content-type negotiation
refuses. -/
theorem jsonChain_blocked {σ : Type} (h : Handler σ) (ps : Params) (r : Request) (st : St σ)
    (hm : r.Method = "PUT" ∨ r.Method = "POST" ∨ r.Method = "PATCH")
    (ha : ¬ anyContentType r.Header ["application/json"] = true) :
    wrapHandler (chainThen jsonChain h) ps r st
      = ({ w := httpError st.w
              ("Unsupported content type " ++ goQuote (r.Header.Get "Content-Type")
                ++ "; expected one of [" ++ goQuote "application/json" ++ "]") 415,
            ctx := none, store := st.store, calls := st.calls }, Exit.returned) := by
  simp only [wrapHandler, chain_unfold_json, ClearHandler, LoggingHandler, RecoverHandler,
    jsonTypeHandler, NewContentTypeHandler, hm, not_true_eq_false, if_false, ha,
    StatusUnsupportedMediaType]
  rfl

theorem answers_of_writes {σ : Type} (method : String) (out : St σ × Exit) (code : Nat)
    (body : List Chunk) (hw : writes out code body) (hm : method ≠ "HEAD") :
    answers method ({ out.1 with ctx := none }, Exit.returned) code body := by
  obtain ⟨_, h2, h3⟩ := hw
  exact ⟨rfl, h2, by simp [sentBody, hm, h3]⟩

theorem answers_head_of_writes {σ : Type} (out : St σ × Exit) (code : Nat)
    (body : List Chunk) (hw : writes out code body) :
    answers "HEAD" ({ out.1 with ctx := none }, Exit.returned) code [] := by
  obtain ⟨_, h2, _⟩ := hw
  exact ⟨rfl, h2, by simp [sentBody]⟩

/-! ### What each handler writes -/

theorem bucket_CheckExists_cases {σ : Type} (fs : GridFS σ) (r : Request) (s : St σ)
    (ps : Params) (hctx : s.ctx = some ps) (hs : s.w.status = none) (hb : s.w.body = []) :
    (ps.ByName "name" = "" →
      writes (BucketWebHandler.CheckExists fs r s) 400
        [envelopeChunk "Invalid bucket name" ""]) ∧
    (ps.ByName "name" ≠ "" → ∀ e,
      (fs.count (ps.ByName "name") (fs.ensureIndexKey "metadata.bucket" s.store).2).1
        = .error e →
      writes (BucketWebHandler.CheckExists fs r s) 500
        [envelopeChunk "Operational error" e.Error]) ∧
    (ps.ByName "name" ≠ "" →
      (fs.count (ps.ByName "name") (fs.ensureIndexKey "metadata.bucket" s.store).2).1
        = .ok 0 →
      writes (BucketWebHandler.CheckExists fs r s) 404 []) ∧
    (ps.ByName "name" ≠ "" → ∀ n, n ≠ 0 →
      (fs.count (ps.ByName "name") (fs.ensureIndexKey "metadata.bucket" s.store).2).1
        = .ok n →
      writes (BucketWebHandler.CheckExists fs r s) 302 []) := by
  refine ⟨fun hn => ?_, fun hn e hc => ?_, fun hn hc => ?_, fun hn n hn0 hc => ?_⟩
  · simp only [BucketWebHandler.CheckExists, getParams, hctx, hn, if_true]
    exact respond_fresh _ _ _ _ hs hb
  · simp only [BucketWebHandler.CheckExists, getParams, hctx, hn, if_false, callStore, hc]
    exact respond_fresh _ _ _ (some e) hs hb
  · simp only [BucketWebHandler.CheckExists, getParams, hctx, hn, if_false, callStore, hc,
      if_true]
    exact ⟨rfl, WriteHeader_status_of_none _ _ hs, by
      simpa [ResponseWriter.WriteHeader, hs] using hb⟩
  · simp only [BucketWebHandler.CheckExists, getParams, hctx, hn, if_false, callStore, hc,
      hn0]
    exact ⟨rfl, WriteHeader_status_of_none _ _ hs, by
      simpa [ResponseWriter.WriteHeader, hs] using hb⟩

theorem Write_fresh (w : ResponseWriter) (c : Chunk) (hs : w.status = none)
    (hb : w.body = []) : (w.Write c).status = some 200 ∧ (w.Write c).body = [c] := by
  simp [ResponseWriter.Write, ResponseWriter.WriteHeader, hs, hb]

theorem Retreive_cases {σ : Type} (fs : GridFS σ) (r : Request) (s : St σ)
    (ps : Params) (hctx : s.ctx = some ps) (hs : s.w.status = none) (hb : s.w.body = []) :
    (ps.ByName "name" = "" →
      writes (BucketWebHandler.Retreive fs r s) 400
        [envelopeChunk "Invalid bucket name" ""]) ∧
    (ps.ByName "name" ≠ "" → ∀ records e,
      (fs.iterAll (ps.ByName "name") s.store).1 = (records, some e) →
      writes (BucketWebHandler.Retreive fs r s) 500
        [envelopeChunk "Operational error" e.Error]) ∧
    (ps.ByName "name" ≠ "" → ∀ records,
      (fs.iterAll (ps.ByName "name") s.store).1 = (records, none) →
      writes (BucketWebHandler.Retreive fs r s) 200
        [.json (BucketMeta.toJson
          { Name := ps.ByName "name", Objects := some (records.map strippedRecord) })]) := by
  refine ⟨fun hn => ?_, fun hn records e hi => ?_, fun hn records hi => ?_⟩
  · simp only [BucketWebHandler.Retreive, getParams, hctx, hn, if_true]
    exact respond_fresh _ _ _ _ hs hb
  · simp only [BucketWebHandler.Retreive, getParams, hctx, hn, if_false, callStore, hi]
    exact respond_fresh _ _ _ (some e) hs hb
  · simp only [BucketWebHandler.Retreive, getParams, hctx, hn, if_false, callStore, hi,
      retreiveLoop_eq, List.nil_append]
    exact ⟨rfl, (Write_fresh _ _ hs hb).1, (Write_fresh _ _ hs hb).2⟩

theorem stub_writes {σ : Type} (s : St σ) (hs : s.w.status = none) (hb : s.w.body = []) :
    writes (respondWithError s StatusNotImplemented "Not implemented" none, Exit.returned) 501
      [envelopeChunk "Not implemented" ""] :=
  respond_fresh _ _ _ _ hs hb

theorem object_CheckExists_cases {σ : Type} (fs : GridFS σ) (r : Request) (s : St σ)
    (ps : Params) (hctx : s.ctx = some ps) (hs : s.w.status = none) (hb : s.w.body = []) :
    (IsObjectIdHex (ps.ByName "id") = false →
      writes (ObjectWebHandler.CheckExists fs r s) 400
        [envelopeChunk "Invalid object ID" ""]) ∧
    (IsObjectIdHex (ps.ByName "id") = true →
      (fs.findId (ObjectIdHex (ps.ByName "id")) s.store).1 = .error .errNotFound →
      writes (ObjectWebHandler.CheckExists fs r s) 404 []) ∧
    (IsObjectIdHex (ps.ByName "id") = true → ∀ e, e ≠ GoError.errNotFound →
      (fs.findId (ObjectIdHex (ps.ByName "id")) s.store).1 = .error e →
      writes (ObjectWebHandler.CheckExists fs r s) 500
        [envelopeChunk "Operational error" e.Error]) ∧
    (IsObjectIdHex (ps.ByName "id") = true → ∀ m,
      (fs.findId (ObjectIdHex (ps.ByName "id")) s.store).1 = .ok m →
      writes (ObjectWebHandler.CheckExists fs r s) 302 []) := by
  refine ⟨fun hv => ?_, fun hv hf => ?_, fun hv e hne hf => ?_, fun hv m hf => ?_⟩
  · simp only [ObjectWebHandler.CheckExists, getParams, hctx, hv, Bool.false_eq_true,
      not_false_eq_true, if_true]
    exact respond_fresh _ _ _ _ hs hb
  · simp only [ObjectWebHandler.CheckExists, getParams, hctx, hv, not_true_eq_false,
      if_false, callStore, hf]
    exact ⟨rfl, WriteHeader_status_of_none _ _ hs, by
      simpa [ResponseWriter.WriteHeader, hs] using hb⟩
  · simp only [ObjectWebHandler.CheckExists, getParams, hctx, hv, not_true_eq_false,
      if_false, callStore, hf]
    cases e with
    | errNotFound => exact absurd rfl hne
    | eof => exact respond_fresh _ _ _ (some .eof) hs hb
    | other msg => exact respond_fresh _ _ _ (some (.other msg)) hs hb
  · simp only [ObjectWebHandler.CheckExists, getParams, hctx, hv, not_true_eq_false,
      if_false, callStore, hf]
    exact ⟨rfl, WriteHeader_status_of_none _ _ hs, by
      simpa [ResponseWriter.WriteHeader, hs] using hb⟩

theorem About_cases {σ : Type} (fs : GridFS σ) (r : Request) (s : St σ)
    (ps : Params) (hctx : s.ctx = some ps) (hs : s.w.status = none) (hb : s.w.body = []) :
    (IsObjectIdHex (ps.ByName "id") = false →
      writes (ObjectWebHandler.About fs r s) 400 [envelopeChunk "Invalid object ID" ""]) ∧
    (IsObjectIdHex (ps.ByName "id") = true →
      (fs.findId (ObjectIdHex (ps.ByName "id")) s.store).1 = .error .errNotFound →
      writes (ObjectWebHandler.About fs r s) 404
        [envelopeChunk "Object does not exist" "not found"]) ∧
    (IsObjectIdHex (ps.ByName "id") = true → ∀ e, e ≠ GoError.errNotFound →
      (fs.findId (ObjectIdHex (ps.ByName "id")) s.store).1 = .error e →
      writes (ObjectWebHandler.About fs r s) 500
        [envelopeChunk "Operational error" e.Error]) ∧
    (IsObjectIdHex (ps.ByName "id") = true → ∀ m,
      (fs.findId (ObjectIdHex (ps.ByName "id")) s.store).1 = .ok m →
      writes (ObjectWebHandler.About fs r s) 200 [.json m.toJson]) := by
  refine ⟨fun hv => ?_, fun hv hf => ?_, fun hv e hne hf => ?_, fun hv m hf => ?_⟩
  · simp only [ObjectWebHandler.About, getParams, hctx, hv, Bool.false_eq_true,
      not_false_eq_true, if_true]
    exact respond_fresh _ _ _ _ hs hb
  · simp only [ObjectWebHandler.About, getParams, hctx, hv, not_true_eq_false,
      if_false, callStore, hf]
    exact respond_fresh _ _ _ (some .errNotFound) hs hb
  · simp only [ObjectWebHandler.About, getParams, hctx, hv, not_true_eq_false,
      if_false, callStore, hf]
    cases e with
    | errNotFound => exact absurd rfl hne
    | eof => exact respond_fresh _ _ _ (some .eof) hs hb
    | other msg => exact respond_fresh _ _ _ (some (.other msg)) hs hb
  · simp only [ObjectWebHandler.About, getParams, hctx, hv, not_true_eq_false,
      if_false, callStore, hf]
    exact ⟨rfl, (Write_fresh _ _ hs hb).1, (Write_fresh _ _ hs hb).2⟩

theorem Download_cases {σ : Type} (fs : GridFS σ) (r : Request) (s : St σ)
    (ps : Params) (hctx : s.ctx = some ps) (hs : s.w.status = none) (hb : s.w.body = []) :
    (IsObjectIdHex (ps.ByName "id") = false →
      writes (ObjectWebHandler.Download fs r s) 400 [envelopeChunk "Invalid object ID" ""]) ∧
    (IsObjectIdHex (ps.ByName "id") = true →
      (fs.openId (ObjectIdHex (ps.ByName "id")) s.store).1 = .error .errNotFound →
      writes (ObjectWebHandler.Download fs r s) 404
        [envelopeChunk "Object does not exist" "not found"]) ∧
    (IsObjectIdHex (ps.ByName "id") = true → ∀ e, e ≠ GoError.errNotFound →
      (fs.openId (ObjectIdHex (ps.ByName "id")) s.store).1 = .error e →
      writes (ObjectWebHandler.Download fs r s) 500
        [envelopeChunk "Operational error" e.Error]) ∧
    (IsObjectIdHex (ps.ByName "id") = true → ∀ file,
      (fs.openId (ObjectIdHex (ps.ByName "id")) s.store).1 = .ok file →
      (file.data = "" → readResult file.readErr = none →
        (ObjectWebHandler.Download fs r s).2 = .returned ∧
        (ObjectWebHandler.Download fs r s).1.w.status = none ∧
        (ObjectWebHandler.Download fs r s).1.w.body = []) ∧
      (file.data = "" → ∀ e, readResult file.readErr = some e →
        writes (ObjectWebHandler.Download fs r s) 500
          [envelopeChunk "Operational error" e.Error]) ∧
      (file.data ≠ "" → readResult file.readErr = none →
        writes (ObjectWebHandler.Download fs r s) 200 [.text file.data]) ∧
      (file.data ≠ "" → ∀ e, readResult file.readErr = some e →
        writes (ObjectWebHandler.Download fs r s) 200
          [.text file.data, envelopeChunk "Operational error" e.Error])) := by
  refine ⟨fun hv => ?_, fun hv hf => ?_, fun hv e hne hf => ?_, fun hv file hf => ?_⟩
  · simp only [ObjectWebHandler.Download, getParams, hctx, hv, Bool.false_eq_true,
      not_false_eq_true, if_true]
    exact respond_fresh _ _ _ _ hs hb
  · simp only [ObjectWebHandler.Download, getParams, hctx, hv, not_true_eq_false,
      if_false, callStore, hf]
    exact respond_fresh _ _ _ (some .errNotFound) hs hb
  · simp only [ObjectWebHandler.Download, getParams, hctx, hv, not_true_eq_false,
      if_false, callStore, hf]
    cases e with
    | errNotFound => exact absurd rfl hne
    | eof => exact respond_fresh _ _ _ (some .eof) hs hb
    | other msg => exact respond_fresh _ _ _ (some (.other msg)) hs hb
  · simp only [ObjectWebHandler.Download, getParams, hctx, hv, not_true_eq_false,
      if_false, callStore, hf]
    generalize hw : (if file.name ≠ "" then
        (if file.contentType ≠ "" then s.w.setHeader "Content-Type" file.contentType
          else s.w).setHeader "Content-Disposition"
          ("inline; filename=\"" ++ file.name ++ "\"")
      else if file.contentType ≠ "" then s.w.setHeader "Content-Type" file.contentType
        else s.w) = w
    have hfresh : w.status = none ∧ w.body = [] := by
      rw [← hw]
      split <;> split <;> exact ⟨hs, hb⟩
    obtain ⟨hws, hwb⟩ := hfresh
    refine ⟨fun hd hr => ?_, fun hd e hr => ?_, fun hd hr => ?_, fun hd e hr => ?_⟩
    · simp only [ObjectWebHandler.copyToResponse, hd, if_true, hr]
      exact ⟨trivial, hws, hwb⟩
    · simp only [ObjectWebHandler.copyToResponse, hd, if_true, hr]
      exact ⟨rfl, (respond_fresh
        { w := w, ctx := s.ctx, store := (fs.openId (ObjectIdHex (ps.ByName "id")) s.store).2,
          calls := s.calls ++ [StoreCall.openId (ObjectIdHex (ps.ByName "id"))
            (errOf (Except.ok file))] }
        StatusInternalServerError "Operational error" (some e) hws hwb).2⟩
    · simp only [ObjectWebHandler.copyToResponse, hd, if_false, hr]
      exact ⟨rfl, (Write_fresh _ _ hws hwb).1, (Write_fresh _ _ hws hwb).2⟩
    · simp only [ObjectWebHandler.copyToResponse, hd, if_false, hr]
      refine ⟨rfl, ?_, ?_⟩
      · simp [respondWithError, respondWithErrorW_eq, ResponseWriter.Write,
          ResponseWriter.WriteHeader, hws]
      · simp [respondWithError, respondWithErrorW_eq, ResponseWriter.Write,
          ResponseWriter.WriteHeader, hws, hwb, envelopeChunk]

/-- What one pass through the loop of `Create` does to the response writer:
nothing while the loop goes on or breaks, one 500 envelope when it returns. -/
theorem createStep_writer {σ : Type} (fs : GridFS σ) (p : Part) (obj : ObjectMeta)
    (file : Option GridFile) (st : St σ) :
    (∀ o f s, ObjectWebHandler.createStep fs p obj file st = .next o f s → s.w = st.w) ∧
    (∀ e o f s, ObjectWebHandler.createStep fs p obj file st = .brk e o f s → s.w = st.w) ∧
    (∀ s, ObjectWebHandler.createStep fs p obj file st = .ret s →
      ∃ e, s.w = respondWithErrorW st.w 500 "Failed to create GridFS file" (some e) ∨
        s.w = respondWithErrorW st.w 500 "Failed to save GridFS file" (some e)) := by
  by_cases hp : ObjectWebHandler.isObjectPart p = true
  · have hf := fun n => isField_of_isObjectPart n p hp
    simp only [ObjectWebHandler.createStep, hf, Bool.false_eq_true, if_false, hp, if_true]
    cases hc : (fs.create p.fileName st.store).1 with
    | error e =>
      simp only [callStore, hc]
      refine ⟨fun o f s h => absurd h (by simp), fun e o f s h => absurd h (by simp),
        fun s h => ?_⟩
      simp only [ObjectWebHandler.LoopExit.ret.injEq] at h
      rw [← h]
      exact ⟨e, Or.inl rfl⟩
    | ok id =>
      simp only [callStore, hc]
      generalize hst2 : ({ st with
        store := (fs.create p.fileName st.store).2,
        calls := st.calls ++ [StoreCall.create p.fileName (okId (Except.ok id))] } : St σ)
        = st2
      have hw2 : st2.w = st.w := by rw [← hst2]
      obtain ⟨hw, _⟩ := copyToFile_spec fs (GridFile.new id p.fileName) p st2
      cases hcp : (ObjectWebHandler.copyToFile fs (GridFile.new id p.fileName) p st2).1 with
      | none =>
        simp only [hcp]
        refine ⟨fun o f s h => ?_, fun e o f s h => absurd h (by simp),
          fun s h => absurd h (by simp)⟩
        simp only [ObjectWebHandler.LoopExit.next.injEq] at h
        rw [← h.2.2, hw, hw2]
      | some e =>
        simp only [hcp]
        refine ⟨fun o f s h => absurd h (by simp), fun e o f s h => absurd h (by simp),
          fun s h => ?_⟩
        simp only [ObjectWebHandler.LoopExit.ret.injEq] at h
        rw [← h]
        refine ⟨e, Or.inr ?_⟩
        simp only [respondWithError]
        rw [hw, hw2]
        rfl
  · have hp1 : ObjectWebHandler.isObjectPart p = false := by simpa using hp
    rcases createStep_of_not_object fs p obj file st hp1 with h1 | ⟨e1, _, _, h1⟩
    · rw [h1]
      refine ⟨fun o f s h => ?_, fun e o f s h => absurd h (by simp),
        fun s h => absurd h (by simp)⟩
      simp only [ObjectWebHandler.LoopExit.next.injEq] at h
      rw [h.2.2]
    · rw [h1]
      refine ⟨fun o f s h => absurd h (by simp), fun e o f s h => ?_,
        fun s h => absurd h (by simp)⟩
      simp only [ObjectWebHandler.LoopExit.brk.injEq] at h
      rw [h.2.2.2]

theorem createLoop_writer {σ : Type} (fs : GridFS σ) (parts : List Part) (obj : ObjectMeta)
    (file : Option GridFile) (st : St σ) :
    (∀ o f s, ObjectWebHandler.createLoop fs parts obj file st = .next o f s → s.w = st.w) ∧
    (∀ e o f s, ObjectWebHandler.createLoop fs parts obj file st = .brk e o f s →
      s.w = st.w) ∧
    (∀ s, ObjectWebHandler.createLoop fs parts obj file st = .ret s →
      ∃ e, s.w = respondWithErrorW st.w 500 "Failed to create GridFS file" (some e) ∨
        s.w = respondWithErrorW st.w 500 "Failed to save GridFS file" (some e)) := by
  induction parts generalizing obj file st with
  | nil =>
    simp only [ObjectWebHandler.createLoop]
    refine ⟨fun o f s h => ?_, fun e o f s h => absurd h (by simp),
      fun s h => absurd h (by simp)⟩
    simp only [ObjectWebHandler.LoopExit.next.injEq] at h
    rw [h.2.2]
  | cons p rest ih =>
    obtain ⟨hn, hb, hr⟩ := createStep_writer fs p obj file st
    simp only [ObjectWebHandler.createLoop]
    cases hstep : ObjectWebHandler.createStep fs p obj file st with
    | next o1 f1 s1 =>
      have hw1 := hn o1 f1 s1 hstep
      obtain ⟨ihn, ihb, ihr⟩ := ih o1 f1 s1
      simp only []
      rw [← hw1]
      exact ⟨ihn, ihb, ihr⟩
    | brk e1 o1 f1 s1 =>
      have hw1 := hb e1 o1 f1 s1 hstep
      simp only []
      refine ⟨fun o f s h => absurd h (by simp), fun e o f s h => ?_,
        fun s h => absurd h (by simp)⟩
      simp only [ObjectWebHandler.LoopExit.brk.injEq] at h
      rw [← h.2.2.2, hw1]
    | ret s1 =>
      obtain ⟨e, hw1⟩ := hr s1 hstep
      simp only []
      refine ⟨fun o f s h => absurd h (by simp), fun e o f s h => absurd h (by simp),
        fun s h => ?_⟩
      simp only [ObjectWebHandler.LoopExit.ret.injEq] at h
      rw [← h]
      exact ⟨e, hw1⟩

theorem respondW_fresh (w : ResponseWriter) (code : Nat) (title : String)
    (err : Option GoError) (hs : w.status = none) (hb : w.body = []) :
    (respondWithErrorW w code title err).status = some code ∧
    (respondWithErrorW w code title err).body
      = [envelopeChunk title ((err.map GoError.Error).getD "")] := by
  simp [respondWithErrorW_eq, ResponseWriter.Write, ResponseWriter.WriteHeader, hs, hb,
    envelopeChunk]

theorem createFinish_failed {σ : Type} (fs : GridFS σ) (err : GoError) (obj : ObjectMeta)
    (file : Option GridFile) (st : St σ) (he : err ≠ .eof) (hs : st.w.status = none)
    (hb : st.w.body = []) :
    writes (ObjectWebHandler.createFinish fs err obj file st, Exit.returned) 400
      [envelopeChunk "Failed to process multipart form" err.Error] := by
  unfold ObjectWebHandler.createFinish
  rw [if_pos he]
  cases file with
  | none => exact respond_fresh _ _ _ (some err) hs hb
  | some f => exact respond_fresh _ _ _ (some err) hs hb

theorem createFinish_closing {σ : Type} (fs : GridFS σ) (obj : ObjectMeta) (f : GridFile)
    (st : St σ) (h0 : f.contentType = "") (hs : st.w.status = none) (hb : st.w.body = []) :
    (∀ e, (fs.close (finalFile f.id obj) st.store).1 = some e →
      writes (ObjectWebHandler.createFinish fs .eof obj (some f) st, Exit.returned) 500
        [envelopeChunk "Failed to close GridFS file" e.Error]) ∧
    ((fs.close (finalFile f.id obj) st.store).1 = none →
      (∀ e, (fs.findId f.id (fs.close (finalFile f.id obj) st.store).2).1 = .error e →
        writes (ObjectWebHandler.createFinish fs .eof obj (some f) st, Exit.returned) 500
          [envelopeChunk
            (if e = .errNotFound then "Newly created could not be found"
              else "Operational error") e.Error]) ∧
      (∀ found, (fs.findId f.id (fs.close (finalFile f.id obj) st.store).2).1 = .ok found →
        writes (ObjectWebHandler.createFinish fs .eof obj (some f) st, Exit.returned) 201
          [.json found.toJson])) := by
  unfold ObjectWebHandler.createFinish
  simp only [ne_eq, not_true_eq_false, if_false]
  have hF := finalFile_eq f obj h0
  simp only [ne_eq] at hF
  rw [hF]
  have hid : (finalFile f.id obj).id = f.id := rfl
  generalize finalFile f.id obj = F at hid ⊢
  simp only [callStore, hid]
  refine ⟨fun e hcl => ?_, fun hcl => ⟨fun e hfd => ?_, fun found hfd => ?_⟩⟩
  · simp only [hcl]
    exact respond_fresh _ _ _ (some e) hs hb
  · simp only [hcl, hfd]
    cases e with
    | errNotFound => exact respond_fresh _ _ _ (some .errNotFound) hs hb
    | eof => exact respond_fresh _ _ _ (some .eof) hs hb
    | other msg => exact respond_fresh _ _ _ (some (.other msg)) hs hb
  · simp only [hcl, hfd]
    refine ⟨rfl, ?_, ?_⟩
    · simp [ResponseWriter.Write, ResponseWriter.WriteHeader, hs, StatusCreated]
    · simp [ResponseWriter.Write, ResponseWriter.WriteHeader, hs, hb]

theorem Create_cases {σ : Type} (fs : GridFS σ) (r : Request) (s : St σ)
    (hs : s.w.status = none) (hb : s.w.body = []) :
    (stringsHasPrefix (r.Header.Get "Content-Type") "multipart/form-data" = false →
      writes (ObjectWebHandler.Create fs r s) 415
        [envelopeChunk "Unsupported media type"
          ("Expecting multipart/form-data content type but received: "
            ++ r.Header.Get "Content-Type")]) ∧
    (∀ e, stringsHasPrefix (r.Header.Get "Content-Type") "multipart/form-data" = true →
      r.multipartReader = .error e →
      writes (ObjectWebHandler.Create fs r s) 400
        [envelopeChunk "Failed to parse data" e.Error]) ∧
    (∀ body, stringsHasPrefix (r.Header.Get "Content-Type") "multipart/form-data" = true →
      r.multipartReader = .ok body →
      (∀ s1, ObjectWebHandler.createLoop fs body.parts (ObjectWebHandler.createInit r) none
          (ObjectWebHandler.createEntry s) = .ret s1 →
        ∃ e : GoError, writes (ObjectWebHandler.Create fs r s) 500
            [envelopeChunk "Failed to create GridFS file" e.Error] ∨
          writes (ObjectWebHandler.Create fs r s) 500
            [envelopeChunk "Failed to save GridFS file" e.Error]) ∧
      (∀ e o f s1, ObjectWebHandler.createLoop fs body.parts (ObjectWebHandler.createInit r)
          none (ObjectWebHandler.createEntry s) = .brk e o f s1 →
        writes (ObjectWebHandler.Create fs r s) 400
          [envelopeChunk "Failed to process multipart form" e.Error]) ∧
      (∀ o f s1, ObjectWebHandler.createLoop fs body.parts (ObjectWebHandler.createInit r)
          none (ObjectWebHandler.createEntry s) = .next o f s1 → body.final ≠ .eof →
        writes (ObjectWebHandler.Create fs r s) 400
          [envelopeChunk "Failed to process multipart form" body.final.Error]) ∧
      (∀ o s1, ObjectWebHandler.createLoop fs body.parts (ObjectWebHandler.createInit r)
          none (ObjectWebHandler.createEntry s) = .next o none s1 → body.final = .eof →
        writes (ObjectWebHandler.Create fs r s) 400
          [envelopeChunk "Bad request" "No object has been uploaded"]) ∧
      (∀ o f s1, ObjectWebHandler.createLoop fs body.parts (ObjectWebHandler.createInit r)
          none (ObjectWebHandler.createEntry s) = .next o (some f) s1 → body.final = .eof →
        (∀ e, (fs.close (finalFile f.id o) s1.store).1 = some e →
          writes (ObjectWebHandler.Create fs r s) 500
            [envelopeChunk "Failed to close GridFS file" e.Error]) ∧
        ((fs.close (finalFile f.id o) s1.store).1 = none →
          (∀ e, (fs.findId f.id (fs.close (finalFile f.id o) s1.store).2).1 = .error e →
            writes (ObjectWebHandler.Create fs r s) 500
              [envelopeChunk
                (if e = .errNotFound then "Newly created could not be found"
                  else "Operational error") e.Error]) ∧
          (∀ found,
            (fs.findId f.id (fs.close (finalFile f.id o) s1.store).2).1 = .ok found →
            writes (ObjectWebHandler.Create fs r s) 201 [.json found.toJson])))) := by
  have hs1 : (ObjectWebHandler.createEntry s).w.status = none := hs
  have hb1 : (ObjectWebHandler.createEntry s).w.body = [] := hb
  refine ⟨fun hp => ?_, fun e hp he => ?_, fun body hp hbody => ?_⟩
  · simp only [ObjectWebHandler.Create, hp, Bool.false_eq_true, not_false_eq_true, if_true]
    exact respond_fresh _ _ _ (some (.other _)) hs1 hb1
  · simp only [ObjectWebHandler.Create, hp, not_true_eq_false, if_false, he]
    exact respond_fresh _ _ _ (some e) hs1 hb1
  · rw [Create_of_multipart fs r s body hp hbody]
    obtain ⟨hn, hbk, hr⟩ := createLoop_writer fs body.parts (ObjectWebHandler.createInit r)
      none (ObjectWebHandler.createEntry s)
    refine ⟨fun s1 hL => ?_, fun e o f s1 hL => ?_, fun o f s1 hL hfin => ?_,
      fun o s1 hL hfin => ?_, fun o f s1 hL hfin => ?_⟩
    · obtain ⟨e, hw | hw⟩ := hr s1 hL
      · refine ⟨e, Or.inl ?_⟩
        simp only [hL, ObjectWebHandler.createTail]
        have := respondW_fresh _ 500 "Failed to create GridFS file" (some e) hs1 hb1
        rw [← hw] at this
        exact ⟨rfl, this.1, this.2⟩
      · refine ⟨e, Or.inr ?_⟩
        simp only [hL, ObjectWebHandler.createTail]
        have := respondW_fresh _ 500 "Failed to save GridFS file" (some e) hs1 hb1
        rw [← hw] at this
        exact ⟨rfl, this.1, this.2⟩
    · have hw := hbk e o f s1 hL
      obtain ⟨p, _, hrd⟩ := createLoop_brk fs body.parts _ o none f _ s1 e hL
      simp only [hL, ObjectWebHandler.createTail]
      exact createFinish_failed fs e o f s1 (readResult_ne_eof _ _ hrd)
        (by rw [hw]; exact hs1) (by rw [hw]; exact hb1)
    · have hw := hn o f s1 hL
      simp only [hL, ObjectWebHandler.createTail]
      exact createFinish_failed fs body.final o f s1 hfin
        (by rw [hw]; exact hs1) (by rw [hw]; exact hb1)
    · have hw := hn o none s1 hL
      simp only [hL, ObjectWebHandler.createTail, createFinish_no_file, hfin, ne_eq,
        not_true_eq_false, if_false]
      exact respond_fresh _ _ _ (some (.other "No object has been uploaded"))
        (by rw [hw]; exact hs1) (by rw [hw]; exact hb1)
    · have hw := hn o (some f) s1 hL
      have h0 : f.contentType = "" := by
        obtain ⟨_, _, _, new, _, _, _, hcase⟩ :=
          createLoop_next fs body.parts _ o none (some f) _ s1 hL
        cases hl : lastObjectPart body.parts with
        | none =>
          simp only [hl] at hcase
          exact absurd hcase.2.1 (by simp)
        | some q =>
          simp only [hl] at hcase
          obtain ⟨⟨id, hid⟩, hf⟩ := hcase
          rw [hid] at hf
          simp only [Option.some.injEq] at hf
          rw [hf]
          rfl
      simp only [hL, ObjectWebHandler.createTail, hfin]
      exact createFinish_closing fs o f s1 h0 (by rw [hw]; exact hs1) (by rw [hw]; exact hb1)

/-! ### From the handler to the registered handle -/

theorem json_answers {σ : Type} (h : Handler σ) (ps : Params) (r : Request) (st : St σ)
    (method : String) (code : Nat) (body : List Chunk)
    (hgate : ¬ (r.Method = "PUT" ∨ r.Method = "POST" ∨ r.Method = "PATCH")
      ∨ anyContentType r.Header ["application/json"] = true)
    (hw : writes (h r (jsonEntry ps st)) code body) (hm : method ≠ "HEAD") :
    answers method (wrapHandler (chainThen jsonChain h) ps r st) code body := by
  rw [jsonChain_run h ps r st hgate hw.1]
  exact answers_of_writes method _ code body hw hm

theorem json_answers_head {σ : Type} (h : Handler σ) (ps : Params) (r : Request) (st : St σ)
    (code : Nat) (body : List Chunk)
    (hgate : ¬ (r.Method = "PUT" ∨ r.Method = "POST" ∨ r.Method = "PATCH")
      ∨ anyContentType r.Header ["application/json"] = true)
    (hw : writes (h r (jsonEntry ps st)) code body) :
    answers "HEAD" (wrapHandler (chainThen jsonChain h) ps r st) code [] := by
  rw [jsonChain_run h ps r st hgate hw.1]
  exact answers_head_of_writes _ code body hw

theorem default_answers {σ : Type} (h : Handler σ) (ps : Params) (r : Request) (st : St σ)
    (method : String) (code : Nat) (body : List Chunk)
    (hw : writes (h r (defaultEntry ps st)) code body) (hm : method ≠ "HEAD") :
    answers method (wrapHandler (chainThen defaultChain h) ps r st) code body := by
  rw [defaultChain_run h ps r st hw.1]
  exact answers_of_writes method _ code body hw hm

theorem objectMeta_json_ne_envelope (m : ObjectMeta) (e : Error) :
    m.toJson ≠ errorEnvelope e := by
  intro h
  simp [ObjectMeta.toJson, errorEnvelope] at h

theorem bucketMeta_json_ne_envelope (b : BucketMeta) (e : Error) :
    b.toJson ≠ errorEnvelope e := by
  intro h
  simp [BucketMeta.toJson, errorEnvelope] at h

/-- C11, as stated, fails on three registered routes. `PUT /objects/:id` with a
Content-Type other than `application/json` is answered 415 with the plain text
of `http.Error`, not the Error Envelope. `HEAD /objects/:id` for an absent
identifier is answered 404 with an empty body. And `GET /objects/:id` whose
read fails after content has been sent keeps the success status 200 with a
body that ends in an Error Envelope. -/
theorem error_envelope_counterexample :
    (findRoute (routes memFS) "PUT" "/objects/:id").map
        (fun h => (h [("id", "0123456789abcdef01234567")]
          (plainRequest "PUT" "/objects/0123456789abcdef01234567"
            [("Content-Type", ["text/plain"])])
          St.start).1.w.status) = some (some 415) ∧
    (findRoute (routes memFS) "PUT" "/objects/:id").map
        (fun h => sentBody "PUT" (h [("id", "0123456789abcdef01234567")]
          (plainRequest "PUT" "/objects/0123456789abcdef01234567"
            [("Content-Type", ["text/plain"])])
          St.start).1.w)
      = some [.text ("Unsupported content type \"text/plain\"; "
          ++ "expected one of [\"application/json\"]\n")] ∧
    (findRoute (routes memFS) "HEAD" "/objects/:id").map
        (fun h => (h [("id", "0123456789abcdef01234567")]
          (plainRequest "HEAD" "/objects/0123456789abcdef01234567" [])
          St.start).1.w.status) = some (some 404) ∧
    (findRoute (routes memFS) "HEAD" "/objects/:id").map
        (fun h => sentBody "HEAD" (h [("id", "0123456789abcdef01234567")]
          (plainRequest "HEAD" "/objects/0123456789abcdef01234567" [])
          St.start).1.w) = some [] ∧
    (findRoute (routes brokenReadFS) "GET" "/objects/:id").map
        (fun h => (h [("id", "0123456789abcdef01234567")]
          (plainRequest "GET" "/objects/0123456789abcdef01234567" [])
          St.start).1.w.status) = some (some 200) ∧
    (findRoute (routes brokenReadFS) "GET" "/objects/:id").map
        (fun h => sentBody "GET" (h [("id", "0123456789abcdef01234567")]
          (plainRequest "GET" "/objects/0123456789abcdef01234567" [])
          St.start).1.w)
      = some [.text "hel", envelopeChunk "Operational error" "unexpected EOF"] :=
  ⟨by decide, rfl, by decide, rfl, by decide, rfl⟩

/-- C11, amended: for a request dispatched by the router to a registered route
(its method is the method of the route) and served on a fresh response writer,
the handle returns normally and the client receives, route by route:
* `HEAD /buckets/:name` and `HEAD /objects/:id`: never a body (the server eats
  the body writes of a HEAD request); status 400 for an empty name or an invalid
  identifier, 500 for a store error, 404 when nothing is found, 302 otherwise;
* `GET /buckets/:name`: 400 or 500 with the Error Envelope, else 200 with the
  raw `BucketMeta`;
* `GET /objects/:id/meta`: 400, 404 or 500 with the Error Envelope, else 200
  with the raw `ObjectMeta` the store returned;
* `GET /objects/:id`: 400, 404 or 500 with the Error Envelope when nothing has
  been sent yet; else the raw content with status 200, followed by an Error
  Envelope when the read fails after content was sent; an empty object sends
  nothing and commits no status;
* `POST /objects`: 415, 400 or 500 with the Error Envelope, else 201 with the
  raw `ObjectMeta` read back from the store;
* `PUT /objects/:id`: 501 with the Error Envelope when the content type is
  `application/json`, else 415 with the plain text of `http.Error`;
* `DELETE /buckets/:name` and `DELETE /objects/:id`: 501 with the Error
  Envelope.
The JSON of an `ObjectMeta` or `BucketMeta` is never an Error Envelope, and a
fault of an inner handler that has written nothing is answered by
`RecoverHandler` with status 500 and the plain text of `http.Error`. -/
theorem route_response_body {σ : Type} (fs : GridFS σ) (ps : Params) (r : Request)
    (st : St σ) (hs : st.w.status = none) (hb : st.w.body = []) :
    (∀ h, findRoute (routes fs) "HEAD" "/buckets/:name" = some h → r.Method = "HEAD" →
      (ps.ByName "name" = "" → answers "HEAD" (h ps r st) 400 []) ∧
      (ps.ByName "name" ≠ "" → ∀ e,
        (fs.count (ps.ByName "name") (fs.ensureIndexKey "metadata.bucket" st.store).2).1
          = .error e → answers "HEAD" (h ps r st) 500 []) ∧
      (ps.ByName "name" ≠ "" →
        (fs.count (ps.ByName "name") (fs.ensureIndexKey "metadata.bucket" st.store).2).1
          = .ok 0 → answers "HEAD" (h ps r st) 404 []) ∧
      (ps.ByName "name" ≠ "" → ∀ n, n ≠ 0 →
        (fs.count (ps.ByName "name") (fs.ensureIndexKey "metadata.bucket" st.store).2).1
          = .ok n → answers "HEAD" (h ps r st) 302 [])) ∧
    (∀ h, findRoute (routes fs) "GET" "/buckets/:name" = some h → r.Method = "GET" →
      (ps.ByName "name" = "" →
        answers "GET" (h ps r st) 400 [envelopeChunk "Invalid bucket name" ""]) ∧
      (ps.ByName "name" ≠ "" → ∀ records e,
        (fs.iterAll (ps.ByName "name") st.store).1 = (records, some e) →
        answers "GET" (h ps r st) 500 [envelopeChunk "Operational error" e.Error]) ∧
      (ps.ByName "name" ≠ "" → ∀ records,
        (fs.iterAll (ps.ByName "name") st.store).1 = (records, none) →
        answers "GET" (h ps r st) 200
          [.json (BucketMeta.toJson
            { Name := ps.ByName "name", Objects := some (records.map strippedRecord) })])) ∧
    (∀ h, findRoute (routes fs) "DELETE" "/buckets/:name" = some h → r.Method = "DELETE" →
      answers "DELETE" (h ps r st) 501 [envelopeChunk "Not implemented" ""]) ∧
    (∀ h, findRoute (routes fs) "POST" "/objects" = some h → r.Method = "POST" →
      (stringsHasPrefix (r.Header.Get "Content-Type") "multipart/form-data" = false →
        answers "POST" (h ps r st) 415
          [envelopeChunk "Unsupported media type"
            ("Expecting multipart/form-data content type but received: "
              ++ r.Header.Get "Content-Type")]) ∧
      (∀ e, stringsHasPrefix (r.Header.Get "Content-Type") "multipart/form-data" = true →
        r.multipartReader = .error e →
        answers "POST" (h ps r st) 400 [envelopeChunk "Failed to parse data" e.Error]) ∧
      (∀ body, stringsHasPrefix (r.Header.Get "Content-Type") "multipart/form-data" = true →
        r.multipartReader = .ok body →
        (∀ s1, ObjectWebHandler.createLoop fs body.parts (ObjectWebHandler.createInit r) none
            (ObjectWebHandler.createEntry (defaultEntry ps st)) = .ret s1 →
          ∃ e : GoError, answers "POST" (h ps r st) 500
              [envelopeChunk "Failed to create GridFS file" e.Error] ∨
            answers "POST" (h ps r st) 500
              [envelopeChunk "Failed to save GridFS file" e.Error]) ∧
        (∀ e o f s1, ObjectWebHandler.createLoop fs body.parts
            (ObjectWebHandler.createInit r) none
            (ObjectWebHandler.createEntry (defaultEntry ps st)) = .brk e o f s1 →
          answers "POST" (h ps r st) 400
            [envelopeChunk "Failed to process multipart form" e.Error]) ∧
        (∀ o f s1, ObjectWebHandler.createLoop fs body.parts
            (ObjectWebHandler.createInit r) none
            (ObjectWebHandler.createEntry (defaultEntry ps st)) = .next o f s1 →
          body.final ≠ .eof →
          answers "POST" (h ps r st) 400
            [envelopeChunk "Failed to process multipart form" body.final.Error]) ∧
        (∀ o s1, ObjectWebHandler.createLoop fs body.parts
            (ObjectWebHandler.createInit r) none
            (ObjectWebHandler.createEntry (defaultEntry ps st)) = .next o none s1 →
          body.final = .eof →
          answers "POST" (h ps r st) 400
            [envelopeChunk "Bad request" "No object has been uploaded"]) ∧
        (∀ o f s1, ObjectWebHandler.createLoop fs body.parts
            (ObjectWebHandler.createInit r) none
            (ObjectWebHandler.createEntry (defaultEntry ps st)) = .next o (some f) s1 →
          body.final = .eof →
          (∀ e, (fs.close (finalFile f.id o) s1.store).1 = some e →
            answers "POST" (h ps r st) 500
              [envelopeChunk "Failed to close GridFS file" e.Error]) ∧
          ((fs.close (finalFile f.id o) s1.store).1 = none →
            (∀ e, (fs.findId f.id (fs.close (finalFile f.id o) s1.store).2).1 = .error e →
              answers "POST" (h ps r st) 500
                [envelopeChunk
                  (if e = .errNotFound then "Newly created could not be found"
                    else "Operational error") e.Error]) ∧
            (∀ found,
              (fs.findId f.id (fs.close (finalFile f.id o) s1.store).2).1 = .ok found →
              answers "POST" (h ps r st) 201 [.json found.toJson]))))) ∧
    (∀ h, findRoute (routes fs) "PUT" "/objects/:id" = some h → r.Method = "PUT" →
      (truncateAtSemicolon (r.Header.Get "Content-Type") = "application/json" →
        answers "PUT" (h ps r st) 501 [envelopeChunk "Not implemented" ""]) ∧
      (truncateAtSemicolon (r.Header.Get "Content-Type") ≠ "application/json" →
        answers "PUT" (h ps r st) 415
          [.text ("Unsupported content type " ++ goQuote (r.Header.Get "Content-Type")
            ++ "; expected one of [" ++ goQuote "application/json" ++ "]" ++ "\n")])) ∧
    (∀ h, findRoute (routes fs) "HEAD" "/objects/:id" = some h → r.Method = "HEAD" →
      (IsObjectIdHex (ps.ByName "id") = false → answers "HEAD" (h ps r st) 400 []) ∧
      (IsObjectIdHex (ps.ByName "id") = true →
        (fs.findId (ObjectIdHex (ps.ByName "id")) st.store).1 = .error .errNotFound →
        answers "HEAD" (h ps r st) 404 []) ∧
      (IsObjectIdHex (ps.ByName "id") = true → ∀ e, e ≠ GoError.errNotFound →
        (fs.findId (ObjectIdHex (ps.ByName "id")) st.store).1 = .error e →
        answers "HEAD" (h ps r st) 500 []) ∧
      (IsObjectIdHex (ps.ByName "id") = true → ∀ m,
        (fs.findId (ObjectIdHex (ps.ByName "id")) st.store).1 = .ok m →
        answers "HEAD" (h ps r st) 302 [])) ∧
    (∀ h, findRoute (routes fs) "GET" "/objects/:id" = some h → r.Method = "GET" →
      (IsObjectIdHex (ps.ByName "id") = false →
        answers "GET" (h ps r st) 400 [envelopeChunk "Invalid object ID" ""]) ∧
      (IsObjectIdHex (ps.ByName "id") = true →
        (fs.openId (ObjectIdHex (ps.ByName "id")) st.store).1 = .error .errNotFound →
        answers "GET" (h ps r st) 404
          [envelopeChunk "Object does not exist" "not found"]) ∧
      (IsObjectIdHex (ps.ByName "id") = true → ∀ e, e ≠ GoError.errNotFound →
        (fs.openId (ObjectIdHex (ps.ByName "id")) st.store).1 = .error e →
        answers "GET" (h ps r st) 500 [envelopeChunk "Operational error" e.Error]) ∧
      (IsObjectIdHex (ps.ByName "id") = true → ∀ file,
        (fs.openId (ObjectIdHex (ps.ByName "id")) st.store).1 = .ok file →
        (file.data = "" → readResult file.readErr = none →
          (h ps r st).2 = .returned ∧ (h ps r st).1.w.status = none ∧
          sentBody "GET" (h ps r st).1.w = []) ∧
        (file.data = "" → ∀ e, readResult file.readErr = some e →
          answers "GET" (h ps r st) 500 [envelopeChunk "Operational error" e.Error]) ∧
        (file.data ≠ "" → readResult file.readErr = none →
          answers "GET" (h ps r st) 200 [.text file.data]) ∧
        (file.data ≠ "" → ∀ e, readResult file.readErr = some e →
          answers "GET" (h ps r st) 200
            [.text file.data, envelopeChunk "Operational error" e.Error]))) ∧
    (∀ h, findRoute (routes fs) "GET" "/objects/:id/meta" = some h → r.Method = "GET" →
      (IsObjectIdHex (ps.ByName "id") = false →
        answers "GET" (h ps r st) 400 [envelopeChunk "Invalid object ID" ""]) ∧
      (IsObjectIdHex (ps.ByName "id") = true →
        (fs.findId (ObjectIdHex (ps.ByName "id")) st.store).1 = .error .errNotFound →
        answers "GET" (h ps r st) 404
          [envelopeChunk "Object does not exist" "not found"]) ∧
      (IsObjectIdHex (ps.ByName "id") = true → ∀ e, e ≠ GoError.errNotFound →
        (fs.findId (ObjectIdHex (ps.ByName "id")) st.store).1 = .error e →
        answers "GET" (h ps r st) 500 [envelopeChunk "Operational error" e.Error]) ∧
      (IsObjectIdHex (ps.ByName "id") = true → ∀ m,
        (fs.findId (ObjectIdHex (ps.ByName "id")) st.store).1 = .ok m →
        answers "GET" (h ps r st) 200 [.json m.toJson])) ∧
    (∀ h, findRoute (routes fs) "DELETE" "/objects/:id" = some h → r.Method = "DELETE" →
      answers "DELETE" (h ps r st) 501 [envelopeChunk "Not implemented" ""]) ∧
    (∀ (m : ObjectMeta) (e : Error), m.toJson ≠ errorEnvelope e) ∧
    (∀ (b : BucketMeta) (e : Error), b.toJson ≠ errorEnvelope e) ∧
    (∀ (next : Handler σ) (st1 : St σ) (v : String), next r st = (st1, .panicked v) →
      st1.w.status = none → st1.w.body = [] →
      (RecoverHandler next r st).2 = .returned ∧
      (RecoverHandler next r st).1.w.status = some 500 ∧
      (RecoverHandler next r st).1.w.body = [.text "Internal Server Error\n"]) := by
  have hnot : ∀ m : String, r.Method = m → m ≠ "PUT" → m ≠ "POST" → m ≠ "PATCH" →
      (¬ (r.Method = "PUT" ∨ r.Method = "POST" ∨ r.Method = "PATCH")
        ∨ anyContentType r.Header ["application/json"] = true) := by
    intro m hm h1 h2 h3
    refine Or.inl ?_
    rw [hm]
    rintro (h | h | h)
    · exact h1 h
    · exact h2 h
    · exact h3 h
  refine ⟨?_, ?_, ?_, ?_, ?_, ?_, ?_, ?_, ?_, objectMeta_json_ne_envelope,
    bucketMeta_json_ne_envelope, ?_⟩
  · intro h hroute hm
    have hh : h = wrapHandler (chainThen jsonChain (BucketWebHandler.CheckExists fs)) := by
      simp [findRoute, routes] at hroute
      exact hroute.symm
    subst hh
    have hgate := hnot "HEAD" hm (by decide) (by decide) (by decide)
    obtain ⟨c1, c2, c3, c4⟩ :=
      bucket_CheckExists_cases fs r (jsonEntry ps st) ps rfl hs hb
    exact ⟨fun hn => json_answers_head _ ps r st _ _ hgate (c1 hn),
      fun hn e hc => json_answers_head _ ps r st _ _ hgate (c2 hn e hc),
      fun hn hc => json_answers_head _ ps r st _ _ hgate (c3 hn hc),
      fun hn n hn0 hc => json_answers_head _ ps r st _ _ hgate (c4 hn n hn0 hc)⟩
  · intro h hroute hm
    have hh : h = wrapHandler (chainThen jsonChain (BucketWebHandler.Retreive fs)) := by
      simp [findRoute, routes] at hroute
      exact hroute.symm
    subst hh
    have hgate := hnot "GET" hm (by decide) (by decide) (by decide)
    obtain ⟨c1, c2, c3⟩ := Retreive_cases fs r (jsonEntry ps st) ps rfl hs hb
    exact ⟨fun hn => json_answers _ ps r st _ _ _ hgate (c1 hn) (by decide),
      fun hn records e hi => json_answers _ ps r st _ _ _ hgate (c2 hn records e hi)
        (by decide),
      fun hn records hi => json_answers _ ps r st _ _ _ hgate (c3 hn records hi)
        (by decide)⟩
  · intro h hroute hm
    have hh : h = wrapHandler (chainThen jsonChain (BucketWebHandler.Delete fs)) := by
      simp [findRoute, routes] at hroute
      exact hroute.symm
    subst hh
    have hgate := hnot "DELETE" hm (by decide) (by decide) (by decide)
    exact json_answers _ ps r st _ _ _ hgate (stub_writes (jsonEntry ps st) hs hb) (by decide)
  · intro h hroute hm
    have hh : h = wrapHandler (chainThen defaultChain (ObjectWebHandler.Create fs)) := by
      simp [findRoute, routes] at hroute
      exact hroute.symm
    subst hh
    obtain ⟨c1, c2, c3⟩ := Create_cases fs r (defaultEntry ps st) hs hb
    refine ⟨fun hp => default_answers _ ps r st _ _ _ (c1 hp) (by decide),
      fun e hp he => default_answers _ ps r st _ _ _ (c2 e hp he) (by decide),
      fun body hp hbody => ?_⟩
    obtain ⟨d1, d2, d3, d4, d5⟩ := c3 body hp hbody
    refine ⟨fun s1 hL => ?_,
      fun e o f s1 hL => default_answers _ ps r st _ _ _ (d2 e o f s1 hL) (by decide),
      fun o f s1 hL hfin => default_answers _ ps r st _ _ _ (d3 o f s1 hL hfin) (by decide),
      fun o s1 hL hfin => default_answers _ ps r st _ _ _ (d4 o s1 hL hfin) (by decide),
      fun o f s1 hL hfin => ?_⟩
    · obtain ⟨e, hw | hw⟩ := d1 s1 hL
      · exact ⟨e, Or.inl (default_answers _ ps r st _ _ _ hw (by decide))⟩
      · exact ⟨e, Or.inr (default_answers _ ps r st _ _ _ hw (by decide))⟩
    · obtain ⟨e1, e2⟩ := d5 o f s1 hL hfin
      exact ⟨fun e hcl => default_answers _ ps r st _ _ _ (e1 e hcl) (by decide),
        fun hcl => ⟨fun e hfd =>
            default_answers _ ps r st _ _ _ ((e2 hcl).1 e hfd) (by decide),
          fun found hfd =>
            default_answers _ ps r st _ _ _ ((e2 hcl).2 found hfd) (by decide)⟩⟩
  · intro h hroute hm
    have hh : h = wrapHandler (chainThen jsonChain (ObjectWebHandler.Update fs)) := by
      simp [findRoute, routes] at hroute
      exact hroute.symm
    subst hh
    have hany : anyContentType r.Header ["application/json"] = true
        ↔ truncateAtSemicolon (r.Header.Get "Content-Type") = "application/json" := by
      rw [anyContentType_iff]
      simp
    refine ⟨fun hc => ?_, fun hc => ?_⟩
    · exact json_answers _ ps r st _ _ _ (Or.inr (hany.2 hc))
        (stub_writes (jsonEntry ps st) hs hb) (by decide)
    · rw [jsonChain_blocked _ ps r st (Or.inl hm) (fun ha => hc (hany.1 ha))]
      refine ⟨rfl, httpError_status_of_none _ _ _ hs, ?_⟩
      simp only [sentBody]
      rw [if_neg (by decide)]
      exact httpError_body_fresh _ _ _ hs hb
  · intro h hroute hm
    have hh : h = wrapHandler (chainThen jsonChain (ObjectWebHandler.CheckExists fs)) := by
      simp [findRoute, routes] at hroute
      exact hroute.symm
    subst hh
    have hgate := hnot "HEAD" hm (by decide) (by decide) (by decide)
    obtain ⟨c1, c2, c3, c4⟩ :=
      object_CheckExists_cases fs r (jsonEntry ps st) ps rfl hs hb
    exact ⟨fun hv => json_answers_head _ ps r st _ _ hgate (c1 hv),
      fun hv hf => json_answers_head _ ps r st _ _ hgate (c2 hv hf),
      fun hv e hne hf => json_answers_head _ ps r st _ _ hgate (c3 hv e hne hf),
      fun hv m hf => json_answers_head _ ps r st _ _ hgate (c4 hv m hf)⟩
  · intro h hroute hm
    have hh : h = wrapHandler (chainThen defaultChain (ObjectWebHandler.Download fs)) := by
      simp [findRoute, routes] at hroute
      exact hroute.symm
    subst hh
    obtain ⟨c1, c2, c3, c4⟩ := Download_cases fs r (defaultEntry ps st) ps rfl hs hb
    refine ⟨fun hv => default_answers _ ps r st _ _ _ (c1 hv) (by decide),
      fun hv hf => default_answers _ ps r st _ _ _ (c2 hv hf) (by decide),
      fun hv e hne hf => default_answers _ ps r st _ _ _ (c3 hv e hne hf) (by decide),
      fun hv file hf => ?_⟩
    obtain ⟨d1, d2, d3, d4⟩ := c4 hv file hf
    refine ⟨fun hd hr => ?_,
      fun hd e hr => default_answers _ ps r st _ _ _ (d2 hd e hr) (by decide),
      fun hd hr => default_answers _ ps r st _ _ _ (d3 hd hr) (by decide),
      fun hd e hr => default_answers _ ps r st _ _ _ (d4 hd e hr) (by decide)⟩
    obtain ⟨k1, k2, k3⟩ := d1 hd hr
    rw [defaultChain_run _ ps r st k1]
    refine ⟨rfl, k2, ?_⟩
    simp only [sentBody]
    rw [if_neg (by decide)]
    exact k3
  · intro h hroute hm
    have hh : h = wrapHandler (chainThen jsonChain (ObjectWebHandler.About fs)) := by
      simp [findRoute, routes] at hroute
      exact hroute.symm
    subst hh
    have hgate := hnot "GET" hm (by decide) (by decide) (by decide)
    obtain ⟨c1, c2, c3, c4⟩ := About_cases fs r (jsonEntry ps st) ps rfl hs hb
    exact ⟨fun hv => json_answers _ ps r st _ _ _ hgate (c1 hv) (by decide),
      fun hv hf => json_answers _ ps r st _ _ _ hgate (c2 hv hf) (by decide),
      fun hv e hne hf => json_answers _ ps r st _ _ _ hgate (c3 hv e hne hf) (by decide),
      fun hv m hf => json_answers _ ps r st _ _ _ hgate (c4 hv m hf) (by decide)⟩
  · intro h hroute hm
    have hh : h = wrapHandler (chainThen jsonChain (ObjectWebHandler.Delete fs)) := by
      simp [findRoute, routes] at hroute
      exact hroute.symm
    subst hh
    have hgate := hnot "DELETE" hm (by decide) (by decide) (by decide)
    exact json_answers _ ps r st _ _ _ hgate (stub_writes (jsonEntry ps st) hs hb) (by decide)
  · intro next st1 v hp hs1 hb1
    simp only [RecoverHandler, hp]
    exact ⟨trivial, httpError_status_of_none _ _ _ hs1, httpError_body_fresh _ _ _ hs1 hb1⟩

theorem route_response_body_witness :
    answers "GET"
      ((wrapHandler (chainThen jsonChain (ObjectWebHandler.About memFS)))
        [("id", "0123456789abcdef01234567")]
        (plainRequest "GET" "/objects/0123456789abcdef01234567/meta" []) St.start)
      404 [envelopeChunk "Object does not exist" "not found"] ∧
    answers "HEAD"
      ((wrapHandler (chainThen jsonChain (ObjectWebHandler.CheckExists memFS)))
        [("id", "not-an-id")]
        (plainRequest "HEAD" "/objects/not-an-id" []) St.start)
      400 [] :=
  ⟨((route_response_body memFS [("id", "0123456789abcdef01234567")]
      (plainRequest "GET" "/objects/0123456789abcdef01234567/meta" []) St.start rfl
      rfl).2.2.2.2.2.2.2.1 _ rfl rfl).2.1 (by decide) rfl,
   ((route_response_body memFS [("id", "not-an-id")]
      (plainRequest "HEAD" "/objects/not-an-id" []) St.start rfl
      rfl).2.2.2.2.2.1 _ rfl rfl).1 (by decide)⟩

end StorageGateway
